import Mathlib

/-!
Verification of the partial-date ("fuzzy date") core of `fuzzy_dates.py`.

The embedding below is a shallow model of the pure core of the source file
`src/fuzzy_dates/fuzzy_dates.py`:

* `CustomMeta.__call__` (input normalisation and validation) is modelled by
  `FuzzyDates.make` (built from `resolveSeed` and `validateBuild`);
* the `FuzzyDate` value (a `str` subclass carrying `year`/`month`/`day`
  attributes) is modelled by the structure `FuzzyDates.FuzzyDate`, whose
  `canonical` field is the underlying string `"{y}.{m}.{d}"` built by
  `FuzzyDate.__new__`;
* the methods `is_fuzzy`, `as_list`, `get_start`, `get_end`, `get_range`
  and `as_date` are modelled by functions of the same names.

Python-level conventions captured by the model:

* heterogeneous field values (absent / `int` / `str`) are modelled by `PyVal`;
* Python truthiness (`if seed:`, `if not year:`, `month or "00"`) is
  modelled by `pyTruthy` / `seedTruthy`;
* `int(v)` is modelled by `pyInt`; for strings the model covers an optional
  single leading sign followed by decimal digits (Python additionally strips
  whitespace and allows underscores, which no value in this development uses);
* `f"{v}"` and `f"{v:>02}"` are modelled by `pyStr` and `pyFmt02` (with the
  explicit-alignment form, `0` is the fill character, so the rendered value
  is left-padded with `'0'` to width 2);
* the distinct `ValueError`/`TypeError` raise sites are modelled by the
  constructors of `FDError`;
* `datetime.date(y, m, d)` validity and `calendar.monthrange(y, m)[1]` use
  the proleptic Gregorian calendar, modelled by `dateValid` / `daysInMonthI`
  (with `monthrange` rejecting months outside 1..12, as `calendar` does);
* `DATE_PATTERN` (four digits, then optionally a separator and two digits,
  then optionally a separator and two more digits, then the `$` anchor,
  where a separator is a dot, dash or slash) used with `re.match` is
  modelled by `matchDate`, including the possibility that `$` matches just
  before a single trailing newline.  In the source the pattern is a `str`
  pattern, so `\d` matches any Unicode decimal digit (category Nd), and
  `int()` accepts those digits as well; the model covers the ASCII digits
  `0`-`9` only, and every statement that quantifies over string seeds
  carries an explicit all-ASCII hypothesis, under which `matchDate` and
  the source's `DATE_PATTERN` coincide.
-/

namespace FuzzyDates

/-- Decimal digit characters, as used by Python `str(int)` rendering. -/
def digitChar (n : Nat) : Char :=
  match n with
  | 0 => '0'
  | 1 => '1'
  | 2 => '2'
  | 3 => '3'
  | 4 => '4'
  | 5 => '5'
  | 6 => '6'
  | 7 => '7'
  | 8 => '8'
  | 9 => '9'
  | _ => '*'

/-- Numeric value of a digit character. -/
def digitVal (c : Char) : Nat := c.toNat - 48

/-- Test for an ASCII decimal digit.  The source's `str`-pattern `\d` and
`int()` additionally accept every non-ASCII Unicode decimal digit
(category Nd); the model covers the ASCII fragment only, and statements
about string seeds restrict to all-ASCII strings, on which the two
notions of digit agree. -/
def isDig (c : Char) : Bool := 48 ≤ c.toNat && c.toNat ≤ 57

/-- Test for an ASCII character, used to name the fragment of string
seeds on which this model of the regex and of `int()` is faithful. -/
def isAsciiChar (c : Char) : Bool := c.toNat < 128

/-- Fuel-indexed decimal rendering of a natural number (least significant
digit last), total and structurally recursive so that it evaluates in the
kernel. -/
def natReprFuel : Nat → Nat → List Char
  | 0, _ => []
  | fuel + 1, n =>
    if n < 10 then [digitChar n]
    else natReprFuel fuel (n / 10) ++ [digitChar (n % 10)]

/-- Decimal digit list of a natural number, as Python `str(n)` renders it
(no leading zeros). -/
def natReprL (n : Nat) : List Char := natReprFuel (n + 1) n

/-- Decimal string of a natural number. -/
def natReprS (n : Nat) : String := ⟨natReprL n⟩

/-- Python `str(i)` for an `int`. -/
def intReprS (i : Int) : String :=
  if i < 0 then ⟨'-' :: natReprL (-i).toNat⟩ else natReprS i.toNat

/-- Two-character zero-padded decimal digit list (the shape of the stored
month/day components). -/
def pad2L (n : Nat) : List Char :=
  if n < 10 then '0' :: natReprL n else natReprL n

/-- Two-character zero-padded decimal string. -/
def pad2S (n : Nat) : String := ⟨pad2L n⟩

/-- Value of a list of digit characters, most significant first. -/
def numOfDigits (l : List Char) : Nat :=
  l.foldl (fun a c => 10 * a + digitVal c) 0

/-- Parse a nonempty all-digit character list; `Option.none` models the
`ValueError` raised by Python `int()` on other strings. -/
def parseDigitsL (l : List Char) : Option Nat :=
  if l = [] then Option.none
  else if l.all isDig then some (numOfDigits l) else Option.none

/-- Python `int(s)` on a string: optional single leading sign, then decimal
digits. -/
def pyIntL (l : List Char) : Option Int :=
  match l with
  | '-' :: rest => (parseDigitsL rest).map (fun n => -(n : Int))
  | '+' :: rest => (parseDigitsL rest).map (fun n => (n : Int))
  | _ => (parseDigitsL l).map (fun n => (n : Int))

/-- A Python value appearing as a year/month/day field: absent (`None` /
missing keyword), an `int`, or a `str`. -/
inductive PyVal where
  | none : PyVal
  | int : Int → PyVal
  | str : String → PyVal
deriving DecidableEq, Repr

/-- Python truthiness of a field value (`None` and `0` and `""` are falsy). -/
def pyTruthy : PyVal → Bool
  | .none => false
  | .int n => n != 0
  | .str s => s != ""

/-- Python `f"{v}"`. -/
def pyStr : PyVal → String
  | .none => "None"
  | .int n => intReprS n
  | .str s => s

/-- Python `f"{v:>02}"`: render, then left-pad with `'0'` to width 2. -/
def pyFmt02 (v : PyVal) : String :=
  let s := pyStr v
  match s.data with
  | [] => "00"
  | [c] => ⟨['0', c]⟩
  | _ => s

/-- Python `v != "00"` where `v` is an `int` or `str` (an `int` is never
equal to a string). -/
def pyNe00 : PyVal → Bool
  | .str s => s != "00"
  | _ => true

/-- Python `int(v)` on a field value. -/
def pyInt : PyVal → Option Int
  | .none => Option.none
  | .int n => some n
  | .str s => pyIntL s.data

/-- The distinct error raise sites of the source, one constructor per
distinct reportable error. -/
inductive FDError where
  | malformedInput
  | invalidInputType
  | missingYear
  | dayWithoutMonth
  | intConversion
  | yearOutOfRange
  | invalidCalendarDate
  | illegalMonth
  | invalidRangeDefault
deriving DecidableEq, Repr

/-- Gregorian leap-year rule (`calendar.isleap` and `datetime.date`). -/
def isLeap (y : Int) : Bool :=
  y % 4 == 0 && (y % 100 != 0 || y % 400 == 0)

/-- Number of days of month `m` of year `y` (months outside 1..12 are given
a dummy value of 31; every use is guarded by a month-range check). -/
def daysInMonthI (y m : Int) : Int :=
  if m = 2 then (if isLeap y then 29 else 28)
  else if m = 4 ∨ m = 6 ∨ m = 9 ∨ m = 11 then 30
  else 31

/-- Validity of a `(year, month, day)` triple for `datetime.date`. -/
def dateValid (y m d : Int) : Bool :=
  1 ≤ y && y ≤ 9999 && 1 ≤ m && m ≤ 12 && 1 ≤ d && d ≤ daysInMonthI y m

/-- Nat-level days-in-month, used in specification statements. -/
def daysInMonthN (y m : Nat) : Nat := (daysInMonthI y m).toNat

/-- Separator characters accepted by `DATE_PATTERN`. -/
def isSep (c : Char) : Bool := c == '.' || c == '-' || c == '/'

/-- Where the `$` anchor of the pattern may sit: at the end of the string,
or just before a single trailing newline. -/
def endOk (rest : List Char) : Bool := rest = [] || rest = ['\n']

/-- The regex `DATE_PATTERN` applied with `re.match` and read out with
`m.groups()`: on success, the 4-digit year and the optional 2-digit month
and day groups.  Faithful to the source on all-ASCII input; on strings
containing non-ASCII Unicode decimal digits the source's `\d` also
matches, which this model does not cover. -/
def matchDate (l : List Char) : Option (List Char × Option (List Char) × Option (List Char)) :=
  match l with
  | y1 :: y2 :: y3 :: y4 :: rest =>
    if isDig y1 && isDig y2 && isDig y3 && isDig y4 then
      if endOk rest then some ([y1, y2, y3, y4], Option.none, Option.none)
      else
        match rest with
        | s1 :: m1 :: m2 :: rest2 =>
          if isSep s1 && isDig m1 && isDig m2 then
            if endOk rest2 then some ([y1, y2, y3, y4], some [m1, m2], Option.none)
            else
              match rest2 with
              | s2 :: d1 :: d2 :: rest3 =>
                if isSep s2 && isDig d1 && isDig d2 && endOk rest3 then
                  some ([y1, y2, y3, y4], some [m1, m2], some [d1, d2])
                else Option.none
              | _ => Option.none
          else Option.none
        | _ => Option.none
    else Option.none
  | _ => Option.none

/-- The `seed` argument of `CustomMeta.__call__`: absent (or falsy), a
string, a `datetime.date`/`datetime.datetime` (only its `year`/`month`/`day`
are read), or any other truthy object. -/
inductive Seed where
  | noSeed : Seed
  | str : String → Seed
  | date : Int → Int → Int → Seed
  | other : Seed
deriving DecidableEq, Repr

/-- Python truthiness of the seed (`if seed:`). -/
def seedTruthy : Seed → Bool
  | .noSeed => false
  | .str s => s != ""
  | .date _ _ _ => true
  | .other => true

/-- The keyword arguments `y`, `m`, `d` of `CustomMeta.__call__`. -/
structure Fields where
  y : PyVal
  m : PyVal
  d : PyVal
deriving DecidableEq, Repr

/-- Empty keyword arguments. -/
def kw0 : Fields := ⟨.none, .none, .none⟩

/-- Lift an optional regex group to a field value. -/
def optStr : Option (List Char) → PyVal
  | some l => .str ⟨l⟩
  | Option.none => .none

/-- The seed-dispatch part of `CustomMeta.__call__`: produce the raw
`(year, month, day)` values from the seed or the keyword arguments. -/
def resolveSeed (seed : Seed) (kw : Fields) : Except FDError (PyVal × PyVal × PyVal) :=
  if seedTruthy seed then
    match seed with
    | .str s =>
      match matchDate s.data with
      | some (yc, mc, dc) => .ok (.str ⟨yc⟩, optStr mc, optStr dc)
      | Option.none => .error .malformedInput
    | .date y m d => .ok (.int y, .int m, .int d)
    | .other => .error .invalidInputType
    | .noSeed => .ok (kw.y, kw.m, kw.d)
  else .ok (kw.y, kw.m, kw.d)

/-- The model of a constructed `FuzzyDate` object: the underlying string
value (built by `FuzzyDate.__new__` as `"{y}.{m}.{d}"`) together with the
attributes set by `FuzzyDate.__init__`. -/
structure FuzzyDate where
  canonical : String
  year : String
  month : String
  day : String
deriving DecidableEq, Repr

/-- The `try` block of `CustomMeta.__call__`: int conversion of the three
components (`mv1`/`dv1` already carry `"00"` for an absent month/day), the
year-range check, the calendar-validity check, and on success the
construction of the object from the normalised strings. -/
def validateCore (yv mv1 dv1 : PyVal) : Except FDError FuzzyDate :=
  match pyInt yv with
  | Option.none => .error .intConversion
  | some iy =>
    match (if pyNe00 mv1 then pyInt mv1 else some 1) with
    | Option.none => .error .intConversion
    | some im =>
      match (if pyNe00 dv1 then pyInt dv1 else some 1) with
      | Option.none => .error .intConversion
      | some idv =>
        if iy < 1000 ∨ iy > 9999 then .error .yearOutOfRange
        else if dateValid iy im idv = false then .error .invalidCalendarDate
        else
          .ok { canonical := pyStr yv ++ "." ++ pyFmt02 mv1 ++ "." ++ pyFmt02 dv1
              , year := pyStr yv
              , month := if pyFmt02 mv1 = "00" then "" else pyFmt02 mv1
              , day := if pyFmt02 dv1 = "00" then "" else pyFmt02 dv1 }

/-- The validation and normalisation part of `CustomMeta.__call__`, from the
raw `(year, month, day)` values to the constructed object or the error
raised, in the source's exact order of checks. -/
def validateBuild (yv mv dv : PyVal) : Except FDError FuzzyDate :=
  if pyTruthy yv = false then .error .missingYear
  else if pyTruthy dv && !pyTruthy mv then .error .dayWithoutMonth
  else
    validateCore yv (if pyTruthy mv then mv else .str "00")
      (if pyTruthy dv then dv else .str "00")

/-- `CustomMeta.__call__`: the only way a `FuzzyDate` is constructed. -/
def make (seed : Seed) (kw : Fields) : Except FDError FuzzyDate :=
  match resolveSeed seed kw with
  | .error e => .error e
  | .ok (yv, mv, dv) => validateBuild yv mv dv

/-- `FuzzyDate.is_fuzzy`. -/
def FuzzyDate.is_fuzzy (fd : FuzzyDate) : Bool := fd.day == ""

/-- `FuzzyDate.as_list`. -/
def FuzzyDate.as_list (fd : FuzzyDate) : List String := [fd.year, fd.month, fd.day]

/-- `FuzzyDate.get_start`. -/
def FuzzyDate.get_start (fd : FuzzyDate) : Except FDError FuzzyDate :=
  make .noSeed
    ⟨.str fd.year
    , .str (if fd.month = "" then "01" else fd.month)
    , .str (if fd.day = "" then "01" else fd.day)⟩

/-- `calendar.monthrange(y, m)[1]`: the number of days of the month, after
`calendar`'s own check that the month is in 1..12. -/
def monthrange (y m : Int) : Except FDError Int :=
  if 1 ≤ m ∧ m ≤ 12 then .ok (daysInMonthI y m) else .error .illegalMonth

/-- `FuzzyDate.get_end`. -/
def FuzzyDate.get_end (fd : FuzzyDate) : Except FDError FuzzyDate :=
  let month : String := if fd.month = "" then "12" else fd.month
  let dayE : Except FDError String :=
    if fd.day = "" then
      match pyInt (.str fd.year) with
      | Option.none => .error .intConversion
      | some yi =>
        match pyInt (.str month) with
        | Option.none => .error .intConversion
        | some mi =>
          match monthrange yi mi with
          | .error e => .error e
          | .ok nd => .ok (intReprS nd)
    else .ok fd.day
  match dayE with
  | .error e => .error e
  | .ok day => make .noSeed ⟨.str fd.year, .str month, .str day⟩

/-- `FuzzyDate.get_range`. -/
def FuzzyDate.get_range (fd : FuzzyDate) :
    Except FDError FuzzyDate × Except FDError FuzzyDate :=
  (fd.get_start, fd.get_end)

/-- `date(*[int(v) for v in non_fuzzy.as_list()])`: the final conversion
done by `as_date`. -/
def listDate (fd : FuzzyDate) : Except FDError (Int × Int × Int) :=
  match pyInt (.str fd.year) with
  | Option.none => .error .intConversion
  | some y =>
    match pyInt (.str fd.month) with
    | Option.none => .error .intConversion
    | some m =>
      match pyInt (.str fd.day) with
      | Option.none => .error .intConversion
      | some d =>
        if dateValid y m d then .ok (y, m, d) else .error .invalidCalendarDate

/-- `FuzzyDate.as_date(default)`; the Python `default=None` is
`Option.none`, a string default is `some s`. -/
def FuzzyDate.as_date (fd : FuzzyDate) (default : Option String) :
    Except FDError (Option (Int × Int × Int)) :=
  if fd.is_fuzzy then
    match default with
    | Option.none => .ok Option.none
    | some s =>
      if s = "start" then
        match fd.get_start with
        | .error e => .error e
        | .ok nf =>
          match listDate nf with
          | .error e => .error e
          | .ok t => .ok (some t)
      else if s = "end" then
        match fd.get_end with
        | .error e => .error e
        | .ok nf =>
          match listDate nf with
          | .error e => .error e
          | .ok t => .ok (some t)
      else .error .invalidRangeDefault
  else
    match listDate fd with
    | .error e => .error e
    | .ok t => .ok (some t)

/-- The canonical-shape value with year `y`, month `m`, day `d`, where `0`
encodes an absent month or day: exactly what `make` builds on success from
canonical-width inputs. -/
def mkWF (y m d : Nat) : FuzzyDate :=
  { canonical := natReprS y ++ "." ++ pad2S m ++ "." ++ pad2S d
  , year := natReprS y
  , month := if m = 0 then "" else pad2S m
  , day := if d = 0 then "" else pad2S d }

/-- The numeric side conditions under which `(y, m, d)` (with `0` for
absent) denotes a constructible value: year in range, month in range or
absent, and the day valid for the month-with-absent-replaced-by-1 check the
constructor performs. -/
def Valid (y m d : Nat) : Prop :=
  1000 ≤ y ∧ y ≤ 9999 ∧ m ≤ 12 ∧ d ≤ 99 ∧
    dateValid (y : Int) ((if m = 0 then 1 else m : Nat) : Int)
      ((if d = 0 then 1 else d : Nat) : Int) = true

instance (y m d : Nat) : Decidable (Valid y m d) := by
  unfold Valid; infer_instance

/-- The normalised keyword arguments carrying the canonical-width string
components for `(y, m, d)` (with `0` encoding an absent month or day). -/
def normKw (y m d : Nat) : Fields :=
  ⟨.str (natReprS y), .str (pad2S m), .str (pad2S d)⟩

/-- Width discipline for a structured field: absent values and integers are
unconstrained; a string must be a plain digit string of at most the
canonical width. -/
def goodF (v : PyVal) (w : Nat) : Prop :=
  match v with
  | .str s => s.data.all isDig = true ∧ s.data.length ≤ w
  | _ => True

/-- Inputs within the canonical widths and the modelled (ASCII) fragment:
an all-ASCII string seed, a calendar-date seed, or keyword fields obeying
`goodF` (year at most 4 digits, month/day at most 2).  The ASCII
condition on string seeds marks where this model of the regex and of
`int()` coincides with the source, which additionally accepts non-ASCII
Unicode decimal digits and stores them verbatim. -/
def GoodInput (seed : Seed) (kw : Fields) : Prop :=
  if seedTruthy seed then
    (match seed with
    | .str s => s.data.all isAsciiChar = true
    | _ => True)
  else goodF kw.y 4 ∧ goodF kw.m 2 ∧ goodF kw.d 2

/-- Unconditional unfolding of `validateCore`, convenient for rewriting. -/
theorem validateCore_eq (yv mv1 dv1 : PyVal) :
    validateCore yv mv1 dv1 =
      (match pyInt yv with
      | Option.none => .error .intConversion
      | some iy =>
        match (if pyNe00 mv1 then pyInt mv1 else some 1) with
        | Option.none => .error .intConversion
        | some im =>
          match (if pyNe00 dv1 then pyInt dv1 else some 1) with
          | Option.none => .error .intConversion
          | some idv =>
            if iy < 1000 ∨ iy > 9999 then .error .yearOutOfRange
            else if dateValid iy im idv = false then .error .invalidCalendarDate
            else
              .ok { canonical := pyStr yv ++ "." ++ pyFmt02 mv1 ++ "." ++ pyFmt02 dv1
                  , year := pyStr yv
                  , month := if pyFmt02 mv1 = "00" then "" else pyFmt02 mv1
                  , day := if pyFmt02 dv1 = "00" then "" else pyFmt02 dv1 }) := rfl

/-! ### Arithmetic facts about the decimal rendering and parsing helpers -/

theorem natReprFuel_congr : ∀ f f2 n, n < f → n < f2 → natReprFuel f n = natReprFuel f2 n := by
  intro f
  induction f with
  | zero => intro f2 n h1 _; omega
  | succ f ih =>
    intro f2 n h1 h2
    cases f2 with
    | zero => omega
    | succ f2 =>
      simp only [natReprFuel]
      by_cases h10 : n < 10
      · simp [h10]
      · rw [if_neg h10, if_neg h10, ih f2 (n / 10) (by omega) (by omega)]

theorem natReprL_lt10 (n : Nat) (h : n < 10) : natReprL n = [digitChar n] := by
  simp [natReprL, natReprFuel, h]

theorem natReprL_ge10 (n : Nat) (h : 10 ≤ n) :
    natReprL n = natReprL (n / 10) ++ [digitChar (n % 10)] := by
  show natReprFuel (n + 1) n = _
  rw [natReprFuel, if_neg (by omega)]
  rw [natReprFuel_congr n (n / 10 + 1) (n / 10) (by omega) (by omega)]
  rfl

theorem digitVal_digitChar : ∀ n < 10, digitVal (digitChar n) = n := by decide

theorem isDig_digitChar : ∀ n < 10, isDig (digitChar n) = true := by decide

theorem digitChar_lt_iff : ∀ a < 10, ∀ b < 10, (digitChar a < digitChar b ↔ a < b) := by decide

theorem digitChar_inj : ∀ a < 10, ∀ b < 10, (digitChar a = digitChar b ↔ a = b) := by decide

theorem ofNat_digit_range : ∀ k < 58, 48 ≤ k → Char.ofNat k = digitChar (k - 48) := by decide

theorem isDig_elim {c : Char} (h : isDig c = true) :
    c = digitChar (digitVal c) ∧ digitVal c < 10 := by
  have hb : 48 ≤ c.toNat ∧ c.toNat ≤ 57 := by
    simpa [isDig, Bool.and_eq_true, decide_eq_true_eq] using h
  have hc : Char.ofNat c.toNat = c := Char.ofNat_toNat c
  have h2 : Char.ofNat c.toNat = digitChar (c.toNat - 48) :=
    ofNat_digit_range c.toNat (by omega) (by omega)
  rw [hc] at h2
  constructor
  · exact h2
  · unfold digitVal
    omega

theorem numOfDigits_acc (a : Nat) (l : List Char) :
    List.foldl (fun a c => 10 * a + digitVal c) a l = a * 10 ^ l.length + numOfDigits l := by
  induction l generalizing a with
  | nil => simp [numOfDigits]
  | cons c l ih =>
    show List.foldl _ (10 * a + digitVal c) l = _
    rw [ih (10 * a + digitVal c)]
    have h2 : numOfDigits (c :: l) = digitVal c * 10 ^ l.length + numOfDigits l := by
      show List.foldl _ (10 * 0 + digitVal c) l = _
      rw [ih (10 * 0 + digitVal c)]
      ring
    rw [h2, List.length_cons]
    ring

theorem numOfDigits_cons (c : Char) (l : List Char) :
    numOfDigits (c :: l) = digitVal c * 10 ^ l.length + numOfDigits l := by
  show List.foldl _ (10 * 0 + digitVal c) l = _
  rw [numOfDigits_acc]
  ring

theorem numOfDigits_lt (l : List Char) (h : l.all isDig = true) :
    numOfDigits l < 10 ^ l.length := by
  induction l with
  | nil => simp [numOfDigits]
  | cons c l ih =>
    rw [List.all_cons, Bool.and_eq_true] at h
    have hv : digitVal c ≤ 9 := by
      have := (isDig_elim h.1).2
      omega
    have h2 := ih h.2
    rw [numOfDigits_cons, List.length_cons, pow_succ, Nat.mul_comm (10 ^ l.length) 10]
    have h3 : digitVal c * 10 ^ l.length ≤ 9 * 10 ^ l.length :=
      Nat.mul_le_mul_right _ hv
    omega

theorem all_isDig_natReprL (n : Nat) : (natReprL n).all isDig = true := by
  induction n using Nat.strong_induction_on with
  | _ n ih =>
    by_cases h : n < 10
    · rw [natReprL_lt10 n h]
      simp [isDig_digitChar n h]
    · rw [natReprL_ge10 n (by omega)]
      rw [List.all_append]
      have h1 := ih (n / 10) (by omega)
      have h2 := isDig_digitChar (n % 10) (by omega)
      simp [h1, h2]

theorem numOfDigits_append_single (l : List Char) (c : Char) :
    numOfDigits (l ++ [c]) = 10 * numOfDigits l + digitVal c := by
  show List.foldl _ 0 (l ++ [c]) = _
  rw [List.foldl_append]
  rfl

theorem numOfDigits_natReprL (n : Nat) : numOfDigits (natReprL n) = n := by
  induction n using Nat.strong_induction_on with
  | _ n ih =>
    by_cases h : n < 10
    · rw [natReprL_lt10 n h]
      show 10 * 0 + digitVal (digitChar n) = n
      rw [digitVal_digitChar n h]
      omega
    · rw [natReprL_ge10 n (by omega), numOfDigits_append_single,
        ih (n / 10) (by omega), digitVal_digitChar (n % 10) (by omega)]
      omega

theorem natReprL_ne_nil (n : Nat) : natReprL n ≠ [] := by
  by_cases h : n < 10
  · rw [natReprL_lt10 n h]
    simp
  · rw [natReprL_ge10 n (by omega)]
    simp

theorem parseDigitsL_natReprL (n : Nat) : parseDigitsL (natReprL n) = some n := by
  unfold parseDigitsL
  rw [if_neg (natReprL_ne_nil n), if_pos (all_isDig_natReprL n), numOfDigits_natReprL n]

theorem pyIntL_digits (l : List Char) (h : l.all isDig = true) (hne : l ≠ []) :
    pyIntL l = some ((numOfDigits l : Nat) : Int) := by
  have hparse : parseDigitsL l = some (numOfDigits l) := by
    simp [parseDigitsL, hne, h]
  unfold pyIntL
  split
  · exfalso
    simp only [List.all_cons, Bool.and_eq_true] at h
    exact absurd h.1 (by decide)
  · exfalso
    simp only [List.all_cons, Bool.and_eq_true] at h
    exact absurd h.1 (by decide)
  · rw [hparse]
    rfl

theorem pyIntL_natReprL (n : Nat) : pyIntL (natReprL n) = some (n : Int) := by
  rw [pyIntL_digits (natReprL n) (all_isDig_natReprL n) (natReprL_ne_nil n),
    numOfDigits_natReprL n]

theorem natReprL_eq_digits4 (y : Nat) (h1 : 1000 ≤ y) (h2 : y ≤ 9999) :
    natReprL y =
      [digitChar (y / 1000), digitChar (y / 100 % 10), digitChar (y / 10 % 10),
        digitChar (y % 10)] := by
  have e2 : y / 10 / 10 = y / 100 := by omega
  have e3 : y / 100 / 10 = y / 1000 := by omega
  rw [natReprL_ge10 y (by omega), natReprL_ge10 (y / 10) (by omega), e2,
    natReprL_ge10 (y / 100) (by omega), e3, natReprL_lt10 (y / 1000) (by omega)]
  simp

theorem pad2L_eq_digits2 (m : Nat) (h : m < 100) :
    pad2L m = [digitChar (m / 10), digitChar (m % 10)] := by
  by_cases h10 : m < 10
  · unfold pad2L
    rw [if_pos h10, natReprL_lt10 m h10]
    have e1 : m / 10 = 0 := by omega
    have e2 : m % 10 = m := by omega
    rw [e1, e2]
    rfl
  · unfold pad2L
    rw [if_neg h10, natReprL_ge10 m (by omega), natReprL_lt10 (m / 10) (by omega)]
    rfl

theorem natReprL_length4 (y : Nat) (h1 : 1000 ≤ y) (h2 : y ≤ 9999) :
    (natReprL y).length = 4 := by
  rw [natReprL_eq_digits4 y h1 h2]
  rfl

theorem pad2L_length (m : Nat) (h : m < 100) : (pad2L m).length = 2 := by
  rw [pad2L_eq_digits2 m h]
  rfl

theorem digits2_uniq (l : List Char) (hd : l.all isDig = true) (hl : l.length = 2) :
    l = pad2L (numOfDigits l) ∧ numOfDigits l < 100 := by
  match l, hl with
  | [a, b], _ =>
    simp only [List.all_cons, List.all_nil, Bool.and_eq_true] at hd
    obtain ⟨ha, hb, -⟩ := hd
    obtain ⟨ha1, ha2⟩ := isDig_elim ha
    obtain ⟨hb1, hb2⟩ := isDig_elim hb
    have hv : numOfDigits [a, b] = 10 * digitVal a + digitVal b := by
      show 10 * (10 * 0 + digitVal a) + digitVal b = _
      ring
    constructor
    · rw [hv, pad2L_eq_digits2 _ (by omega)]
      have e1 : (10 * digitVal a + digitVal b) / 10 = digitVal a := by omega
      have e2 : (10 * digitVal a + digitVal b) % 10 = digitVal b := by omega
      rw [e1, e2, ← ha1, ← hb1]
    · omega

theorem digits4_uniq (l : List Char) (hd : l.all isDig = true) (hl : l.length = 4)
    (hval : 1000 ≤ numOfDigits l) : l = natReprL (numOfDigits l) ∧ numOfDigits l ≤ 9999 := by
  match l, hl with
  | [a, b, c, e], _ =>
    simp only [List.all_cons, List.all_nil, Bool.and_eq_true] at hd
    obtain ⟨ha, hb, hc, he, -⟩ := hd
    obtain ⟨ha1, ha2⟩ := isDig_elim ha
    obtain ⟨hb1, hb2⟩ := isDig_elim hb
    obtain ⟨hc1, hc2⟩ := isDig_elim hc
    obtain ⟨he1, he2⟩ := isDig_elim he
    have hv : numOfDigits [a, b, c, e] =
        1000 * digitVal a + 100 * digitVal b + 10 * digitVal c + digitVal e := by
      show 10 * (10 * (10 * (10 * 0 + digitVal a) + digitVal b) + digitVal c) + digitVal e = _
      ring
    rw [hv] at hval ⊢
    constructor
    · rw [natReprL_eq_digits4 _ hval (by omega)]
      have e1 : (1000 * digitVal a + 100 * digitVal b + 10 * digitVal c + digitVal e) / 1000 =
          digitVal a := by omega
      have e2 : (1000 * digitVal a + 100 * digitVal b + 10 * digitVal c + digitVal e) / 100 % 10 =
          digitVal b := by omega
      have e3 : (1000 * digitVal a + 100 * digitVal b + 10 * digitVal c + digitVal e) / 10 % 10 =
          digitVal c := by omega
      have e4 : (1000 * digitVal a + 100 * digitVal b + 10 * digitVal c + digitVal e) % 10 =
          digitVal e := by omega
      rw [e1, e2, e3, e4, ← ha1, ← hb1, ← hc1, ← he1]
    · omega

/-! ### Lexicographic comparison of the canonical strings -/

theorem lex_cons_iff {a b : Char} {l1 l2 : List Char} :
    List.Lex (· < ·) (a :: l1) (b :: l2) ↔ a < b ∨ (a = b ∧ List.Lex (· < ·) l1 l2) := by
  constructor
  · intro h
    cases h with
    | cons h => exact Or.inr ⟨rfl, h⟩
    | rel h => exact Or.inl h
  · rintro (h | ⟨rfl, h⟩)
    · exact List.Lex.rel h
    · exact List.Lex.cons h

theorem lex_append_iff (l1 : List Char) : ∀ l2 r1 r2 : List Char, l1.length = l2.length →
    (List.Lex (· < ·) (l1 ++ r1) (l2 ++ r2) ↔
      (List.Lex (· < ·) l1 l2 ∨ (l1 = l2 ∧ List.Lex (· < ·) r1 r2))) := by
  induction l1 with
  | nil =>
    intro l2 r1 r2 h
    cases l2 with
    | nil => simp [List.Lex.not_nil_right]
    | cons b t => simp at h
  | cons a t1 ih =>
    intro l2 r1 r2 h
    cases l2 with
    | nil => simp at h
    | cons b t2 =>
      simp only [List.cons_append]
      rw [lex_cons_iff, lex_cons_iff, ih t2 r1 r2 (by simpa using h)]
      simp only [List.cons.injEq]
      tauto

theorem lex_digits2_iff (a b : Nat) (ha : a < 100) (hb : b < 100) :
    (List.Lex (· < ·) (pad2L a) (pad2L b) ↔ a < b) := by
  rw [pad2L_eq_digits2 a ha, pad2L_eq_digits2 b hb, lex_cons_iff, lex_cons_iff,
    digitChar_lt_iff (a / 10) (by omega) (b / 10) (by omega),
    digitChar_inj (a / 10) (by omega) (b / 10) (by omega),
    digitChar_lt_iff (a % 10) (by omega) (b % 10) (by omega),
    digitChar_inj (a % 10) (by omega) (b % 10) (by omega)]
  simp only [List.Lex.not_nil_right, and_false, or_false, iff_false, not_lt]
  omega

theorem pad2L_inj (a b : Nat) (ha : a < 100) (hb : b < 100) :
    (pad2L a = pad2L b ↔ a = b) := by
  rw [pad2L_eq_digits2 a ha, pad2L_eq_digits2 b hb]
  simp only [List.cons.injEq, and_true]
  rw [digitChar_inj (a / 10) (by omega) (b / 10) (by omega),
    digitChar_inj (a % 10) (by omega) (b % 10) (by omega)]
  omega

theorem lex_digits4_iff (a b : Nat) (ha1 : 1000 ≤ a) (ha2 : a ≤ 9999) (hb1 : 1000 ≤ b)
    (hb2 : b ≤ 9999) : (List.Lex (· < ·) (natReprL a) (natReprL b) ↔ a < b) := by
  rw [natReprL_eq_digits4 a ha1 ha2, natReprL_eq_digits4 b hb1 hb2, lex_cons_iff, lex_cons_iff,
    lex_cons_iff, lex_cons_iff,
    digitChar_lt_iff (a / 1000) (by omega) (b / 1000) (by omega),
    digitChar_inj (a / 1000) (by omega) (b / 1000) (by omega),
    digitChar_lt_iff (a / 100 % 10) (by omega) (b / 100 % 10) (by omega),
    digitChar_inj (a / 100 % 10) (by omega) (b / 100 % 10) (by omega),
    digitChar_lt_iff (a / 10 % 10) (by omega) (b / 10 % 10) (by omega),
    digitChar_inj (a / 10 % 10) (by omega) (b / 10 % 10) (by omega),
    digitChar_lt_iff (a % 10) (by omega) (b % 10) (by omega),
    digitChar_inj (a % 10) (by omega) (b % 10) (by omega)]
  simp only [List.Lex.not_nil_right, and_false, or_false, iff_false, not_lt]
  omega

theorem natReprL_inj (a b : Nat) (ha1 : 1000 ≤ a) (ha2 : a ≤ 9999) (hb1 : 1000 ≤ b)
    (hb2 : b ≤ 9999) : (natReprL a = natReprL b ↔ a = b) := by
  rw [natReprL_eq_digits4 a ha1 ha2, natReprL_eq_digits4 b hb1 hb2]
  simp only [List.cons.injEq, and_true]
  rw [digitChar_inj (a / 1000) (by omega) (b / 1000) (by omega),
    digitChar_inj (a / 100 % 10) (by omega) (b / 100 % 10) (by omega),
    digitChar_inj (a / 10 % 10) (by omega) (b / 10 % 10) (by omega),
    digitChar_inj (a % 10) (by omega) (b % 10) (by omega)]
  omega

theorem canonical_toList (y m d : Nat) :
    (mkWF y m d).canonical.toList = natReprL y ++ '.' :: (pad2L m ++ '.' :: pad2L d) := by
  show (natReprS y ++ "." ++ pad2S m ++ "." ++ pad2S d).data = _
  simp only [String.data_append]
  show natReprL y ++ ['.'] ++ pad2L m ++ ['.'] ++ pad2L d = _
  simp [List.append_assoc]

theorem canonical_lt_iff (y1 m1 d1 y2 m2 d2 : Nat)
    (hy1a : 1000 ≤ y1) (hy1b : y1 ≤ 9999) (hy2a : 1000 ≤ y2) (hy2b : y2 ≤ 9999)
    (hm1 : m1 < 100) (hm2 : m2 < 100) (hd1 : d1 < 100) (hd2 : d2 < 100) :
    ((mkWF y1 m1 d1).canonical < (mkWF y2 m2 d2).canonical ↔
      (y1 < y2 ∨ (y1 = y2 ∧ (m1 < m2 ∨ (m1 = m2 ∧ d1 < d2))))) := by
  rw [String.lt_iff_toList_lt, canonical_toList, canonical_toList]
  show List.Lex (· < ·) _ _ ↔ _
  rw [lex_append_iff (natReprL y1) (natReprL y2) _ _
      (by rw [natReprL_length4 y1 hy1a hy1b, natReprL_length4 y2 hy2a hy2b]),
    lex_cons_iff,
    lex_append_iff (pad2L m1) (pad2L m2) _ _
      (by rw [pad2L_length m1 hm1, pad2L_length m2 hm2]),
    lex_cons_iff,
    lex_digits4_iff y1 y2 hy1a hy1b hy2a hy2b, natReprL_inj y1 y2 hy1a hy1b hy2a hy2b,
    lex_digits2_iff m1 m2 hm1 hm2, pad2L_inj m1 m2 hm1 hm2,
    lex_digits2_iff d1 d2 hd1 hd2]
  simp [lt_irrefl]

/-! ### Evaluation of the constructor on canonical-width string inputs -/

theorem natReprS_ne_empty (n : Nat) : natReprS n ≠ "" := by
  intro h
  exact natReprL_ne_nil n (congrArg String.data h)

theorem pad2S_ne_empty (n : Nat) : pad2S n ≠ "" := by
  intro h
  have h2 := congrArg String.data h
  unfold pad2S pad2L at h2
  by_cases h10 : n < 10
  · rw [if_pos h10] at h2
    exact List.cons_ne_nil _ _ h2
  · rw [if_neg h10] at h2
    exact natReprL_ne_nil n h2

theorem pad2S_eq_00_iff (m : Nat) (h : m < 100) : (pad2S m = "00" ↔ m = 0) := by
  have h0 : ("00" : String) = pad2S 0 := rfl
  rw [h0]
  unfold pad2S
  rw [show (⟨pad2L m⟩ : String) = ⟨pad2L 0⟩ ↔ pad2L m = pad2L 0 from
    ⟨fun hh => congrArg String.data hh, fun hh => congrArg String.mk hh⟩]
  exact pad2L_inj m 0 h (by omega)

theorem all_isDig_pad2L (m : Nat) (h : m < 100) : (pad2L m).all isDig = true := by
  rw [pad2L_eq_digits2 m h]
  simp [isDig_digitChar (m / 10) (by omega), isDig_digitChar (m % 10) (by omega)]

theorem numOfDigits_pad2L (m : Nat) (h : m < 100) : numOfDigits (pad2L m) = m := by
  rw [pad2L_eq_digits2 m h]
  show 10 * (10 * 0 + digitVal (digitChar (m / 10))) + digitVal (digitChar (m % 10)) = m
  rw [digitVal_digitChar (m / 10) (by omega), digitVal_digitChar (m % 10) (by omega)]
  omega

theorem pyIntL_pad2L (m : Nat) (h : m < 100) : pyIntL (pad2L m) = some (m : Int) := by
  rw [pyIntL_digits (pad2L m) (all_isDig_pad2L m h)
      (by rw [pad2L_eq_digits2 m h]; exact List.cons_ne_nil _ _),
    numOfDigits_pad2L m h]

theorem pyFmt02_str_len2 (s : String) (h : s.data.length = 2) : pyFmt02 (.str s) = s := by
  unfold pyFmt02
  show (match s.data with
    | [] => "00"
    | [c] => ⟨['0', c]⟩
    | _ => s) = s
  split
  · rename_i heq
    rw [heq] at h
    simp at h
  · rename_i c heq
    rw [heq] at h
    simp at h
  · rfl

theorem pyFmt02_pad2S (m : Nat) (h : m < 100) : pyFmt02 (.str (pad2S m)) = pad2S m :=
  pyFmt02_str_len2 (pad2S m) (pad2L_length m h)

theorem pyTruthy_natReprS (n : Nat) : pyTruthy (.str (natReprS n)) = true := by
  simp [pyTruthy, natReprS_ne_empty n]

theorem pyTruthy_pad2S (n : Nat) : pyTruthy (.str (pad2S n)) = true := by
  simp [pyTruthy, pad2S_ne_empty n]

theorem pyInt_natReprS (n : Nat) : pyInt (.str (natReprS n)) = some (n : Int) :=
  pyIntL_natReprL n

theorem pyInt_pad2S (m : Nat) (h : m < 100) : pyInt (.str (pad2S m)) = some (m : Int) :=
  pyIntL_pad2L m h

theorem pyNe00_pad2S (m : Nat) (h : m < 100) (hm : m ≠ 0) :
    pyNe00 (.str (pad2S m)) = true := by
  simp only [pyNe00, bne_iff_ne, ne_eq]
  rw [pad2S_eq_00_iff m h]
  exact hm

/-- Core evaluation of the validation pipeline on canonical-width string
components: it checks the substituted calendar triple and on success builds
exactly the canonical-shape value `mkWF y m d`. -/
theorem validateBuild_norm (y m d : Nat) (hy1 : 1000 ≤ y) (hy2 : y ≤ 9999) (hm : m < 100)
    (hd : d < 100) :
    validateBuild (.str (natReprS y)) (.str (pad2S m)) (.str (pad2S d)) =
      (if dateValid (y : Int) ((if m = 0 then 1 else m : Nat) : Int)
          ((if d = 0 then 1 else d : Nat) : Int) = true
        then .ok (mkWF y m d) else .error .invalidCalendarDate) := by
  have hrange : ¬((y : Int) < 1000 ∨ (y : Int) > 9999) := by
    omega
  unfold validateBuild
  rw [validateCore_eq]
  rw [pyTruthy_natReprS y, pyTruthy_pad2S m, pyTruthy_pad2S d]
  by_cases hm0 : m = 0 <;> by_cases hd0 : d = 0
  · subst hm0
    subst hd0
    have hnem : pyNe00 (.str (pad2S 0)) = false := rfl
    simp only [Bool.true_eq_false, if_false, Bool.not_true, Bool.and_false, Bool.false_eq_true,
      ite_true, ite_false, if_true, pyInt_natReprS y, hnem, pyFmt02_pad2S 0 (by omega),
      Nat.cast_one]
    rw [if_neg hrange]
    simp [pyStr, mkWF, pad2S_eq_00_iff 0 (by omega)]
    generalize dateValid (y : Int) 1 1 = b
    cases b <;> simp
  · subst hm0
    have hnem : pyNe00 (.str (pad2S 0)) = false := rfl
    have hned : pyNe00 (.str (pad2S d)) = true := pyNe00_pad2S d hd hd0
    simp only [Bool.true_eq_false, if_false, Bool.not_true, Bool.and_false, Bool.false_eq_true,
      ite_true, ite_false, if_true, pyInt_natReprS y, hnem, hned, pyInt_pad2S d hd,
      pyFmt02_pad2S 0 (by omega), pyFmt02_pad2S d hd, Nat.cast_one]
    rw [if_neg hrange]
    simp [pyStr, mkWF, pad2S_eq_00_iff 0 (by omega), pad2S_eq_00_iff d hd, hd0]
    generalize dateValid (y : Int) 1 (d : Int) = b
    cases b <;> simp
  · subst hd0
    have hnem : pyNe00 (.str (pad2S m)) = true := pyNe00_pad2S m hm hm0
    have hned : pyNe00 (.str (pad2S 0)) = false := rfl
    simp only [Bool.true_eq_false, if_false, Bool.not_true, Bool.and_false, Bool.false_eq_true,
      ite_true, ite_false, if_true, pyInt_natReprS y, hnem, hned, pyInt_pad2S m hm,
      pyFmt02_pad2S m hm, pyFmt02_pad2S 0 (by omega), Nat.cast_one]
    rw [if_neg hrange]
    simp [pyStr, mkWF, pad2S_eq_00_iff m hm, pad2S_eq_00_iff 0 (by omega), hm0]
    generalize dateValid (y : Int) (m : Int) 1 = b
    cases b <;> simp
  · have hnem : pyNe00 (.str (pad2S m)) = true := pyNe00_pad2S m hm hm0
    have hned : pyNe00 (.str (pad2S d)) = true := pyNe00_pad2S d hd hd0
    simp only [Bool.true_eq_false, if_false, Bool.not_true, Bool.and_false, Bool.false_eq_true,
      ite_true, ite_false, if_true, pyInt_natReprS y, hnem, hned, pyInt_pad2S m hm,
      pyInt_pad2S d hd, pyFmt02_pad2S m hm, pyFmt02_pad2S d hd]
    rw [if_neg hrange]
    simp [pyStr, mkWF, pad2S_eq_00_iff m hm, pad2S_eq_00_iff d hd, hm0, hd0]
    generalize dateValid (y : Int) (m : Int) (d : Int) = b
    cases b <;> simp

theorem make_norm (y m d : Nat) (hy1 : 1000 ≤ y) (hy2 : y ≤ 9999) (hm : m < 100)
    (hd : d < 100) :
    make .noSeed (normKw y m d) =
      (if dateValid (y : Int) ((if m = 0 then 1 else m : Nat) : Int)
          ((if d = 0 then 1 else d : Nat) : Int) = true
        then .ok (mkWF y m d) else .error .invalidCalendarDate) := by
  have hres : resolveSeed .noSeed (normKw y m d) =
      .ok (.str (natReprS y), .str (pad2S m), .str (pad2S d)) := rfl
  unfold make
  rw [hres]
  exact validateBuild_norm y m d hy1 hy2 hm hd

theorem make_norm_ok (y m d : Nat) (h : Valid y m d) :
    make .noSeed (normKw y m d) = .ok (mkWF y m d) := by
  obtain ⟨h1, h2, h3, h4, h5⟩ := h
  rw [make_norm y m d h1 h2 (by omega) (by omega), if_pos h5]

theorem mkWF_year (y m d : Nat) : (mkWF y m d).year = natReprS y := rfl

theorem mkWF_month (y m d : Nat) : (mkWF y m d).month = if m = 0 then "" else pad2S m := rfl

theorem mkWF_day (y m d : Nat) : (mkWF y m d).day = if d = 0 then "" else pad2S d := rfl

theorem is_fuzzy_mkWF (y m d : Nat) : (mkWF y m d).is_fuzzy = decide (d = 0) := by
  unfold FuzzyDate.is_fuzzy
  rw [mkWF_day]
  by_cases hd : d = 0
  · simp [hd]
  · rw [if_neg hd]
    simp [pad2S_ne_empty d, hd]

theorem daysInMonthI_le31 (y m : Int) : daysInMonthI y m ≤ 31 := by
  unfold daysInMonthI
  split_ifs <;> omega

theorem daysInMonthI_ge28 (y m : Int) : 28 ≤ daysInMonthI y m := by
  unfold daysInMonthI
  split_ifs <;> omega

theorem dateValid_elim {y m d : Int} (h : dateValid y m d = true) :
    1 ≤ y ∧ y ≤ 9999 ∧ 1 ≤ m ∧ m ≤ 12 ∧ 1 ≤ d ∧ d ≤ 31 := by
  have h31 := daysInMonthI_le31 y m
  simp only [dateValid, Bool.and_eq_true, decide_eq_true_eq] at h
  omega

theorem intReprS_nonneg (a : Int) (h : 0 ≤ a) : intReprS a = natReprS a.toNat := by
  unfold intReprS
  rw [if_neg (by omega)]

theorem natReprS_data (n : Nat) : (natReprS n).data = natReprL n := rfl

theorem pyFmt02_int (b : Int) (h1 : 1 ≤ b) (h2 : b ≤ 99) :
    pyFmt02 (.int b) = pad2S b.toNat := by
  have hs : pyStr (.int b) = natReprS b.toNat := intReprS_nonneg b (by omega)
  unfold pyFmt02
  rw [hs]
  simp only [natReprS_data]
  by_cases hb10 : b.toNat < 10
  · rw [natReprL_lt10 b.toNat hb10]
    show (⟨['0', digitChar b.toNat]⟩ : String) = pad2S b.toNat
    unfold pad2S pad2L
    rw [if_pos hb10, natReprL_lt10 b.toNat hb10]
  · have hlen : (natReprL b.toNat).length = 2 := by
      have heq : natReprL b.toNat = pad2L b.toNat := by
        unfold pad2L
        rw [if_neg hb10]
      rw [heq]
      exact pad2L_length b.toNat (by omega)
    rcases hR : natReprL b.toNat with _ | ⟨c1, _ | ⟨c2, _ | ⟨c3, t3⟩⟩⟩
    · rw [hR] at hlen
      simp at hlen
    · rw [hR] at hlen
      simp at hlen
    · show natReprS b.toNat = pad2S b.toNat
      unfold pad2S pad2L natReprS
      rw [if_neg hb10]
    · rw [hR] at hlen
      simp at hlen

/-- Full characterisation of the constructor on structured integer fields:
the checks happen in the source's order (missing year, day-without-month,
year range, calendar validity), with falsy (`0`) fields treated as absent. -/
theorem validateBuild_int (a b c : Int) :
    validateBuild (.int a) (.int b) (.int c) =
      (if a = 0 then .error .missingYear
      else if c ≠ 0 ∧ b = 0 then .error .dayWithoutMonth
      else if a < 1000 ∨ a > 9999 then .error .yearOutOfRange
      else if dateValid a (if b = 0 then 1 else b) (if c = 0 then 1 else c) = false then
        .error .invalidCalendarDate
      else .ok (mkWF a.toNat b.toNat c.toNat)) := by
  have h00fmt : pyFmt02 (PyVal.str "00") = "00" := rfl
  have h00ne : pyNe00 (PyVal.str "00") = false := rfl
  have h00pad : pad2S 0 = "00" := rfl
  by_cases ha : a = 0
  · subst ha
    simp [validateBuild, validateCore_eq, pyTruthy]
  · have hat : pyTruthy (PyVal.int a) = true := by simp [pyTruthy, ha]
    rw [if_neg ha]
    by_cases hb : b = 0 <;> by_cases hc : c = 0
    · subst hb
      subst hc
      have hbt : pyTruthy (PyVal.int 0) = false := rfl
      simp only [validateBuild, validateCore_eq, hat, hbt, Bool.true_eq_false, if_false, Bool.false_and,
        Bool.false_eq_true, ite_false, ite_true, pyInt, h00ne, ne_eq, not_true_eq_false,
        false_and, not_false_eq_true, and_true, and_false]
      by_cases hr : a < 1000 ∨ a > 9999
      · rw [if_pos hr, if_pos hr]
      · rw [if_neg hr, if_neg hr]
        have h4 : intReprS a = natReprS a.toNat := intReprS_nonneg a (by omega)
        simp only [Int.toNat_zero, ite_true, ite_false, if_true, if_false]
        by_cases hdv : dateValid a 1 1 = true
        · simp only [hdv, Bool.true_eq_false, if_false]
          simp [mkWF, h4, h00fmt, h00pad, pyStr]
        · have hdvf : dateValid a 1 1 = false := by simpa using hdv
          simp only [hdvf, if_true]
    · subst hb
      have hbt : pyTruthy (PyVal.int 0) = false := rfl
      have hct : pyTruthy (PyVal.int c) = true := by simp [pyTruthy, hc]
      simp only [validateBuild, validateCore_eq, hat, hbt, hct, Bool.true_eq_false, if_false, Bool.true_and,
        Bool.not_false, ite_true, ite_false, ne_eq, hc, not_false_eq_true, true_and, and_true,
        if_true]
    · subst hc
      have hbt : pyTruthy (PyVal.int b) = true := by simp [pyTruthy, hb]
      have hct : pyTruthy (PyVal.int 0) = false := rfl
      have hbne : pyNe00 (PyVal.int b) = true := rfl
      simp only [validateBuild, validateCore_eq, hat, hbt, hct, Bool.true_eq_false, if_false, Bool.false_and,
        Bool.false_eq_true, ite_false, ite_true, pyInt, hbne, h00ne, ne_eq, not_true_eq_false,
        false_and, and_false, not_false_eq_true, hb, if_neg hb]
      by_cases hr : a < 1000 ∨ a > 9999
      · rw [if_pos hr, if_pos hr]
      · rw [if_neg hr, if_neg hr]
        have h4 : intReprS a = natReprS a.toNat := intReprS_nonneg a (by omega)
        by_cases hdv : dateValid a b 1 = true
        · simp only [hdv, Bool.true_eq_false, if_false]
          obtain ⟨-, -, hb1, hb2, -, -⟩ := dateValid_elim hdv
          have h5 : pyFmt02 (PyVal.int b) = pad2S b.toNat := pyFmt02_int b hb1 (by omega)
          have h6 : ¬(b.toNat = 0) := by omega
          have h7 : ¬(pad2S b.toNat = "00") := by
            rw [pad2S_eq_00_iff b.toNat (by omega)]
            exact h6
          simp [mkWF, h4, h5, h00fmt, h00pad, pyStr, h6, h7]
        · have hdvf : dateValid a b 1 = false := by simpa using hdv
          simp only [hdvf, if_true]
    · have hbt : pyTruthy (PyVal.int b) = true := by simp [pyTruthy, hb]
      have hct : pyTruthy (PyVal.int c) = true := by simp [pyTruthy, hc]
      have hbne : pyNe00 (PyVal.int b) = true := rfl
      have hcne : pyNe00 (PyVal.int c) = true := rfl
      simp only [validateBuild, validateCore_eq, hat, hbt, hct, Bool.true_eq_false, if_false, Bool.not_true,
        Bool.and_false, Bool.false_eq_true, ite_false, ite_true, pyInt, hbne, hcne, ne_eq, hb,
        not_false_eq_true, and_false, if_neg hb, if_neg hc]
      by_cases hr : a < 1000 ∨ a > 9999
      · rw [if_pos hr, if_pos hr]
      · rw [if_neg hr, if_neg hr]
        have h4 : intReprS a = natReprS a.toNat := intReprS_nonneg a (by omega)
        by_cases hdv : dateValid a b c = true
        · simp only [hdv, Bool.true_eq_false, if_false]
          obtain ⟨-, -, hb1, hb2, hc1, hc2⟩ := dateValid_elim hdv
          have h5 : pyFmt02 (PyVal.int b) = pad2S b.toNat := pyFmt02_int b hb1 (by omega)
          have h5c : pyFmt02 (PyVal.int c) = pad2S c.toNat := pyFmt02_int c hc1 (by omega)
          have h6 : ¬(b.toNat = 0) := by omega
          have h7 : ¬(pad2S b.toNat = "00") := by
            rw [pad2S_eq_00_iff b.toNat (by omega)]
            exact h6
          have h6c : ¬(c.toNat = 0) := by omega
          have h7c : ¬(pad2S c.toNat = "00") := by
            rw [pad2S_eq_00_iff c.toNat (by omega)]
            exact h6c
          simp [mkWF, h4, h5, h5c, pyStr, h6, h7, h6c, h7c]
        · have hdvf : dateValid a b c = false := by simpa using hdv
          simp only [hdvf, if_true]

theorem make_int (a b c : Int) :
    make .noSeed ⟨.int a, .int b, .int c⟩ = validateBuild (.int a) (.int b) (.int c) := rfl

theorem pad2S_ge10 (n : Nat) (h : 10 ≤ n) : pad2S n = natReprS n := by
  unfold pad2S pad2L natReprS
  rw [if_neg (by omega)]

theorem pad2S_one : pad2S 1 = "01" := rfl

theorem daysInMonthN_cast (y m : Nat) : ((daysInMonthN y m : Nat) : Int) = daysInMonthI y m := by
  unfold daysInMonthN
  have := daysInMonthI_ge28 (y : Int) (m : Int)
  omega

theorem daysInMonthN_ge28 (y m : Nat) : 28 ≤ daysInMonthN y m := by
  unfold daysInMonthN
  have := daysInMonthI_ge28 (y : Int) (m : Int)
  omega

theorem daysInMonthN_le31 (y m : Nat) : daysInMonthN y m ≤ 31 := by
  unfold daysInMonthN
  have := daysInMonthI_le31 (y : Int) (m : Int)
  omega

theorem daysInMonthI_one (y : Int) : daysInMonthI y 1 = 31 := rfl

theorem daysInMonthI_twelve (y : Int) : daysInMonthI y 12 = 31 := rfl

/-- `get_start` on a canonical-shape value substitutes `01` for the missing
components and rebuilds through the constructor. -/
theorem get_start_mkWF (y m d : Nat) (h : Valid y m d) :
    (mkWF y m d).get_start =
      .ok (mkWF y (if m = 0 then 1 else m) (if d = 0 then 1 else d)) := by
  obtain ⟨h1, h2, h3, h4, h5⟩ := h
  have hm1 : (if (mkWF y m d).month = "" then "01" else (mkWF y m d).month) =
      pad2S (if m = 0 then 1 else m) := by
    rw [mkWF_month]
    by_cases hm0 : m = 0
    · simp [hm0, pad2S_one]
    · simp [hm0, pad2S_ne_empty m]
  have hd1 : (if (mkWF y m d).day = "" then "01" else (mkWF y m d).day) =
      pad2S (if d = 0 then 1 else d) := by
    rw [mkWF_day]
    by_cases hd0 : d = 0
    · simp [hd0, pad2S_one]
    · simp [hd0, pad2S_ne_empty d]
  unfold FuzzyDate.get_start
  rw [hm1, hd1, mkWF_year]
  have hvalid : Valid y (if m = 0 then 1 else m) (if d = 0 then 1 else d) := by
    refine ⟨h1, h2, by split <;> omega, by split <;> omega, ?_⟩
    have e1 : (if (if m = 0 then 1 else m) = 0 then 1 else (if m = 0 then 1 else m)) =
        (if m = 0 then 1 else m) := by
      by_cases hm0 : m = 0 <;> simp [hm0]
    have e2 : (if (if d = 0 then 1 else d) = 0 then 1 else (if d = 0 then 1 else d)) =
        (if d = 0 then 1 else d) := by
      by_cases hd0 : d = 0 <;> simp [hd0]
    rw [e1, e2]
    exact h5
  exact make_norm_ok y _ _ hvalid

theorem pyInt_str12 : pyInt (.str "12") = some 12 := rfl

theorem pad2S_twelve : pad2S 12 = "12" := rfl

/-- `get_end` on a canonical-shape value substitutes `12` for a missing
month and the last day of the resolved month for a missing day. -/
theorem get_end_mkWF (y m d : Nat) (h : Valid y m d) :
    (mkWF y m d).get_end =
      .ok (mkWF y (if m = 0 then 12 else m)
        (if d = 0 then daysInMonthN y (if m = 0 then 12 else m) else d)) := by
  obtain ⟨h1, h2, h3, h4, h5⟩ := h
  by_cases hm0 : m = 0
  · subst hm0
    simp only [ite_true, if_true] at h5 ⊢
    have hmonth : (if (mkWF y 0 d).month = "" then "12" else (mkWF y 0 d).month) = "12" := by
      rw [mkWF_month]
      simp
    unfold FuzzyDate.get_end
    rw [hmonth, mkWF_year, mkWF_day]
    by_cases hd0 : d = 0
    · simp only [hd0, ite_true, if_true, pyInt_natReprS y, pyInt_str12]
      have hmr : monthrange (y : Int) 12 = .ok 31 := rfl
      simp only [hmr]
      have h31 : intReprS 31 = pad2S 31 := rfl
      rw [h31]
      have hdm : daysInMonthN y 12 = 31 := rfl
      rw [hdm, ← pad2S_twelve]
      refine make_norm_ok y 12 31 ⟨h1, h2, by omega, by omega, ?_⟩
      rw [show (if (12 : Nat) = 0 then 1 else 12) = 12 from rfl,
        show (if (31 : Nat) = 0 then 1 else 31) = 31 from rfl]
      unfold dateValid
      simp only [Nat.cast_ofNat, daysInMonthI_twelve, Bool.and_eq_true, decide_eq_true_eq]
      omega
    · simp only [hd0, ite_false, if_false, if_neg (pad2S_ne_empty d)]
      rw [← pad2S_twelve]
      refine make_norm_ok y 12 d ⟨h1, h2, by omega, h4, ?_⟩
      rw [show (if (12 : Nat) = 0 then 1 else 12) = 12 from rfl, if_neg hd0]
      rw [if_neg hd0] at h5
      unfold dateValid at h5 ⊢
      simp only [Nat.cast_one, Nat.cast_ofNat, daysInMonthI_one, daysInMonthI_twelve,
        Bool.and_eq_true, decide_eq_true_eq] at h5 ⊢
      omega
  · simp only [if_neg hm0] at h5 ⊢
    have hmonth : (if (mkWF y m d).month = "" then "12" else (mkWF y m d).month) =
        pad2S m := by
      rw [mkWF_month, if_neg hm0]
      rw [if_neg (pad2S_ne_empty m)]
    unfold FuzzyDate.get_end
    rw [hmonth, mkWF_year, mkWF_day]
    by_cases hd0 : d = 0
    · rw [if_pos hd0] at h5
      have hel := dateValid_elim h5
      simp only [hd0, ite_true, if_true, pyInt_natReprS y, pyInt_pad2S m (by omega)]
      have hmr : monthrange (y : Int) (m : Int) =
          .ok (daysInMonthI (y : Int) (m : Int)) := by
        unfold monthrange
        rw [if_pos (by omega)]
      simp only [hmr]
      have hrep : intReprS (daysInMonthI (y : Int) (m : Int)) =
          natReprS (daysInMonthN y m) := by
        rw [intReprS_nonneg _ (by have := daysInMonthI_ge28 ((y : Nat) : Int) (m : Int); omega)]
        rfl
      have h28 := daysInMonthN_ge28 y m
      have h31 := daysInMonthN_le31 y m
      rw [hrep, ← pad2S_ge10 (daysInMonthN y m) (by omega)]
      refine make_norm_ok y m (daysInMonthN y m) ⟨h1, h2, by omega, by omega, ?_⟩
      rw [if_neg hm0, if_neg (by omega)]
      have hc : ((daysInMonthN y m : Nat) : Int) = daysInMonthI (y : Int) (m : Int) :=
        daysInMonthN_cast y m
      unfold dateValid
      simp only [Bool.and_eq_true, decide_eq_true_eq]
      omega
    · rw [if_neg hd0] at h5
      simp only [hd0, ite_false, if_false, if_neg (pad2S_ne_empty d)]
      refine make_norm_ok y m d ⟨h1, h2, h3, h4, ?_⟩
      rw [if_neg hm0, if_neg hd0]
      exact h5

/-! ### The regex on canonical strings, and the shape of its groups -/

theorem endOk_nil : endOk [] = true := rfl

theorem endOk_dot (t : List Char) : endOk ('.' :: t) = false := rfl

theorem isSep_dot : isSep '.' = true := rfl

/-- Matching the canonical string of a canonical-shape value recovers
exactly the three stored components. -/
theorem matchDate_canonical (y m d : Nat) (hy1 : 1000 ≤ y) (hy2 : y ≤ 9999) (hm : m < 100)
    (hd : d < 100) :
    matchDate (mkWF y m d).canonical.data =
      some (natReprL y, some (pad2L m), some (pad2L d)) := by
  have hc : (mkWF y m d).canonical.toList = natReprL y ++ '.' :: (pad2L m ++ '.' :: pad2L d) :=
    canonical_toList y m d
  show matchDate (mkWF y m d).canonical.toList = _
  rw [hc, natReprL_eq_digits4 y hy1 hy2, pad2L_eq_digits2 m hm, pad2L_eq_digits2 d hd]
  have k1 : isDig (digitChar (y / 1000)) = true := isDig_digitChar _ (by omega)
  have k2 : isDig (digitChar (y / 100 % 10)) = true := isDig_digitChar _ (by omega)
  have k3 : isDig (digitChar (y / 10 % 10)) = true := isDig_digitChar _ (by omega)
  have k4 : isDig (digitChar (y % 10)) = true := isDig_digitChar _ (by omega)
  have k5 : isDig (digitChar (m / 10)) = true := isDig_digitChar _ (by omega)
  have k6 : isDig (digitChar (m % 10)) = true := isDig_digitChar _ (by omega)
  have k7 : isDig (digitChar (d / 10)) = true := isDig_digitChar _ (by omega)
  have k8 : isDig (digitChar (d % 10)) = true := isDig_digitChar _ (by omega)
  simp only [List.cons_append, List.nil_append, matchDate, k1, k2, k3, k4, k5, k6, k7, k8,
    isSep_dot, endOk_dot, endOk_nil, Bool.and_true, Bool.true_and, Bool.and_self, ite_true,
    ite_false, Bool.true_eq_false, Bool.false_eq_true, if_false, if_true]

/-- Any successful match yields a 4-digit year group and, when present,
2-digit month and day groups. -/
theorem matchDate_shape {l yc : List Char} {mo da : Option (List Char)}
    (h : matchDate l = some (yc, mo, da)) :
    (yc.length = 4 ∧ yc.all isDig = true) ∧
      (∀ mc, mo = some mc → mc.length = 2 ∧ mc.all isDig = true) ∧
      (∀ dc, da = some dc → dc.length = 2 ∧ dc.all isDig = true) := by
  unfold matchDate at h
  split at h
  case h_2 => exact absurd h (by simp)
  rename_i y1 y2 y3 y4 rest
  split at h
  case isFalse => exact absurd h (by simp)
  rename_i hy
  simp only [Bool.and_eq_true] at hy
  obtain ⟨⟨⟨hy1, hy2⟩, hy3⟩, hy4⟩ := hy
  split at h
  · rw [Option.some_inj] at h
    obtain ⟨rfl, rfl, rfl⟩ := h
    refine ⟨⟨rfl, by simp [hy1, hy2, hy3, hy4]⟩, ?_, ?_⟩
    · intro mc hmc
      exact absurd hmc (by simp)
    · intro dc hdc
      exact absurd hdc (by simp)
  · split at h
    case h_2 => exact absurd h (by simp)
    rename_i s1 m1 m2 rest2
    split at h
    case isFalse => exact absurd h (by simp)
    rename_i hmm
    simp only [Bool.and_eq_true] at hmm
    obtain ⟨⟨hs1, hm1⟩, hm2⟩ := hmm
    split at h
    · rw [Option.some_inj] at h
      obtain ⟨rfl, rfl, rfl⟩ := h
      refine ⟨⟨rfl, by simp [hy1, hy2, hy3, hy4]⟩, ?_, ?_⟩
      · intro mc hmc
        rw [Option.some_inj] at hmc
        subst hmc
        exact ⟨rfl, by simp [hm1, hm2]⟩
      · intro dc hdc
        exact absurd hdc (by simp)
    · split at h
      case h_2 => exact absurd h (by simp)
      rename_i s2 d1 d2 rest3
      split at h
      case isFalse => exact absurd h (by simp)
      rename_i hdd
      simp only [Bool.and_eq_true] at hdd
      obtain ⟨⟨⟨hs2, hd1⟩, hd2⟩, -⟩ := hdd
      rw [Option.some_inj] at h
      obtain ⟨rfl, rfl, rfl⟩ := h
      refine ⟨⟨rfl, by simp [hy1, hy2, hy3, hy4]⟩, ?_, ?_⟩
      · intro mc hmc
        rw [Option.some_inj] at hmc
        subst hmc
        exact ⟨rfl, by simp [hm1, hm2]⟩
      · intro dc hdc
        rw [Option.some_inj] at hdc
        subst hdc
        exact ⟨rfl, by simp [hd1, hd2]⟩

/-! ### Characterising the constructor on all canonical-width inputs -/

theorem data_nil_eq (s : String) (h : s.data = []) : s = "" := by
  obtain ⟨l⟩ := s
  rw [show String.data ⟨l⟩ = l from rfl] at h
  rw [h]

theorem pyTruthy_str_ne {s : String} (h : pyTruthy (.str s) = true) : s.data ≠ [] := by
  intro hnil
  rw [data_nil_eq s hnil] at h
  exact absurd h (by decide)

theorem pyFmt02_str1 (s : String) (c : Char) (h : s.data = [c]) :
    pyFmt02 (.str s) = ⟨['0', c]⟩ := by
  unfold pyFmt02
  simp only [pyStr]
  rw [h]

/-- A truthy year field of at most 4 digits whose integer value is in range
renders as the plain decimal string of that value. -/
theorem comp4_good (w : PyVal) (hw4 : goodF w 4) (ht : pyTruthy w = true) (iw : Int)
    (hiw : pyInt w = some iw) (hlo : 1000 ≤ iw) (hhi : iw ≤ 9999) :
    pyStr w = natReprS iw.toNat := by
  cases w with
  | none => exact absurd ht (by decide)
  | int n =>
    have hn : n = iw := by simpa [pyInt] using hiw
    subst hn
    exact intReprS_nonneg n (by omega)
  | str s =>
    obtain ⟨hdig, hlen⟩ := hw4
    have hne : s.data ≠ [] := pyTruthy_str_ne ht
    have hp : pyIntL s.data = some ((numOfDigits s.data : Nat) : Int) :=
      pyIntL_digits _ hdig hne
    rw [show pyInt (.str s) = pyIntL s.data from rfl, hp, Option.some_inj] at hiw
    have hval : 1000 ≤ numOfDigits s.data := by omega
    have hlt := numOfDigits_lt s.data hdig
    have hlen4 : s.data.length = 4 := by
      rcases Nat.lt_or_ge s.data.length 4 with hl | hl
      · exfalso
        have hpow : (10 : Nat) ^ s.data.length ≤ 1000 := by
          calc (10 : Nat) ^ s.data.length ≤ 10 ^ 3 := Nat.pow_le_pow_right (by omega) (by omega)
          _ = 1000 := by norm_num
        omega
      · omega
    obtain ⟨huniq, hle⟩ := digits4_uniq s.data hdig hlen4 hval
    have hnat : iw.toNat = numOfDigits s.data := by omega
    show s = natReprS iw.toNat
    rw [hnat]
    show s = ⟨natReprL (numOfDigits s.data)⟩
    rw [← huniq]

/-- A month/day field of at most 2 digits, run through the source's
absent-substitution and int-conversion, renders as a 2-digit zero-padded
string of some value `n`, with `n = 0` exactly when the field was treated
as absent. -/
theorem comp2_good (w : PyVal) (hw : goodF w 2) (iw : Int)
    (hiw : (if pyNe00 (if pyTruthy w then w else .str "00") then
        pyInt (if pyTruthy w then w else .str "00") else some 1) = some iw)
    (h1 : 1 ≤ iw) (h2 : iw ≤ 31) :
    ∃ n : Nat, n ≤ 99 ∧ pyFmt02 (if pyTruthy w then w else .str "00") = pad2S n ∧
      ((n = 0 ∧ iw = 1) ∨ (1 ≤ n ∧ (n : Int) = iw)) := by
  have h00fmt : pyFmt02 (PyVal.str "00") = "00" := rfl
  have h00pad : pad2S 0 = "00" := rfl
  by_cases htw : pyTruthy w = true
  · rw [if_pos htw] at hiw ⊢
    cases w with
    | none => exact absurd htw (by decide)
    | int b =>
      have hb : b = iw := by
        simpa [pyNe00, pyInt] using hiw
      subst hb
      refine ⟨b.toNat, by omega, pyFmt02_int b h1 (by omega), Or.inr ⟨by omega, by omega⟩⟩
    | str t =>
      obtain ⟨hdig, hlen⟩ := hw
      have hne : t.data ≠ [] := pyTruthy_str_ne htw
      by_cases h00 : t = "00"
      · subst h00
        rw [show pyNe00 (PyVal.str "00") = false from rfl] at hiw
        simp only [Bool.false_eq_true, if_false, Option.some_inj] at hiw
        exact ⟨0, by omega, by rw [h00fmt, h00pad], Or.inl ⟨rfl, by omega⟩⟩
      · have hne00 : pyNe00 (PyVal.str t) = true := by
          simp [pyNe00, h00]
        rw [hne00] at hiw
        simp only [eq_self_iff_true, if_true] at hiw
        rw [show pyInt (.str t) = pyIntL t.data from rfl,
          pyIntL_digits _ hdig hne, Option.some_inj] at hiw
        have hlt := numOfDigits_lt t.data hdig
        refine ⟨numOfDigits t.data, ?_, ?_, Or.inr ⟨by omega, by omega⟩⟩
        · have hpow : (10 : Nat) ^ t.data.length ≤ 100 := by
            calc (10 : Nat) ^ t.data.length ≤ 10 ^ 2 := Nat.pow_le_pow_right (by omega) hlen
            _ = 100 := by norm_num
          omega
        · rcases hL : t.data with _ | ⟨c1, _ | ⟨c2, _ | ⟨c3, tl⟩⟩⟩
          · exact absurd hL hne
          · have hc1 := isDig_elim (by
              rw [hL] at hdig
              simpa using hdig)
            rw [pyFmt02_str1 t c1 hL]
            have hv : numOfDigits [c1] = digitVal c1 := by
              show 10 * 0 + digitVal c1 = digitVal c1
              omega
            rw [hv]
            unfold pad2S pad2L
            rw [if_pos hc1.2, natReprL_lt10 _ hc1.2, ← hc1.1]
          · have huniq := digits2_uniq t.data (by rw [hL] at hdig ⊢; exact hdig)
              (by rw [hL]; rfl)
            rw [← hL]
            rw [pyFmt02_str_len2 t (by rw [hL]; rfl)]
            show t = pad2S (numOfDigits t.data)
            unfold pad2S
            rw [← huniq.1]
          · exfalso
            rw [hL] at hlen
            simp at hlen
  · rw [if_neg htw] at hiw ⊢
    rw [show pyNe00 (PyVal.str "00") = false from rfl] at hiw
    simp only [Bool.false_eq_true, if_false, Option.some_inj] at hiw
    exact ⟨0, by omega, by rw [h00fmt, h00pad], Or.inl ⟨rfl, by omega⟩⟩

/-- Every successful construction from canonical-width components is a
canonical-shape value `mkWF y m d` with `Valid y m d`. -/
theorem validateBuild_good (yv mv dv : PyVal) (v : FuzzyDate)
    (hgy : goodF yv 4) (hgm : goodF mv 2) (hgd : goodF dv 2)
    (h : validateBuild yv mv dv = .ok v) :
    ∃ y m d : Nat, Valid y m d ∧ v = mkWF y m d := by
  unfold validateBuild at h
  split at h
  case isTrue => exact absurd h (by simp)
  rename_i hty
  split at h
  case isTrue => exact absurd h (by simp)
  rw [validateCore_eq] at h
  split at h
  case h_1 => exact absurd h (by simp)
  rename_i iy hiy
  split at h
  case h_1 => exact absurd h (by simp)
  rename_i im him
  split at h
  case h_1 => exact absurd h (by simp)
  rename_i idv hid
  split at h
  case isTrue => exact absurd h (by simp)
  rename_i hrange
  split at h
  case isTrue => exact absurd h (by simp)
  rename_i hdvf
  have hv := Except.ok.inj h
  have hty2 : pyTruthy yv = true := by
    cases hpt : pyTruthy yv
    · exact absurd hpt hty
    · rfl
  have hdv : dateValid iy im idv = true := by
    cases hpt : dateValid iy im idv
    · exact absurd hpt hdvf
    · rfl
  obtain ⟨he1, he2, he3, he4, he5, he6⟩ := dateValid_elim hdv
  have hr1 : 1000 ≤ iy := by omega
  have hr2 : iy ≤ 9999 := by omega
  have hys : pyStr yv = natReprS iy.toNat := comp4_good yv hgy hty2 iy hiy hr1 hr2
  obtain ⟨mN, hmN99, hmfmt, hmdisj⟩ := comp2_good mv hgm im him he3 (by omega)
  obtain ⟨dN, hdN99, hdfmt, hddisj⟩ := comp2_good dv hgd idv hid he5 he6
  have e1 : ((if mN = 0 then 1 else mN : Nat) : Int) = im := by
    rcases hmdisj with ⟨h0, him1⟩ | ⟨hge, heq⟩
    · rw [if_pos h0]
      omega
    · rw [if_neg (by omega)]
      omega
  have e2 : ((if dN = 0 then 1 else dN : Nat) : Int) = idv := by
    rcases hddisj with ⟨h0, hid1⟩ | ⟨hge, heq⟩
    · rw [if_pos h0]
      omega
    · rw [if_neg (by omega)]
      omega
  have hcast : ((iy.toNat : Nat) : Int) = iy := by omega
  refine ⟨iy.toNat, mN, dN, ⟨by omega, by omega, ?_, hdN99, ?_⟩, ?_⟩
  · rcases hmdisj with ⟨h0, -⟩ | ⟨hge, heq⟩ <;> omega
  · rw [hcast, e1, e2]
    exact hdv
  · rw [← hv]
    simp only [mkWF, hys, hmfmt, hdfmt, pad2S_eq_00_iff mN (by omega),
      pad2S_eq_00_iff dN (by omega)]

/-- Every successful construction from a `GoodInput` is a canonical-shape
value. -/
theorem make_good (seed : Seed) (kw : Fields) (v : FuzzyDate)
    (hg : GoodInput seed kw) (h : make seed kw = .ok v) :
    ∃ y m d : Nat, Valid y m d ∧ v = mkWF y m d := by
  unfold make at h
  by_cases hst : seedTruthy seed = true
  · cases seed with
    | noSeed => exact absurd hst (by decide)
    | other =>
      replace h : (Except.error FDError.invalidInputType : Except FDError FuzzyDate) =
          .ok v := h
      exact absurd h (by simp)
    | date a b c =>
      replace h : validateBuild (.int a) (.int b) (.int c) = .ok v := h
      exact validateBuild_good (.int a) (.int b) (.int c) v trivial trivial trivial h
    | str s =>
      have hres : resolveSeed (.str s) kw =
          (match matchDate s.data with
          | some (yc, mc, dc) => .ok (.str ⟨yc⟩, optStr mc, optStr dc)
          | Option.none => .error .malformedInput) := by
        unfold resolveSeed
        rw [if_pos hst]
      rcases hmd : matchDate s.data with _ | ⟨yc, mo, da⟩
      · rw [hmd] at hres
        rw [hres] at h
        replace h : (Except.error FDError.malformedInput : Except FDError FuzzyDate) =
            .ok v := h
        exact absurd h (by simp)
      · rw [hmd] at hres
        rw [hres] at h
        replace h : validateBuild (.str ⟨yc⟩) (optStr mo) (optStr da) = .ok v := h
        obtain ⟨⟨hyl, hyd⟩, hmo, hda⟩ := matchDate_shape hmd
        refine validateBuild_good (.str ⟨yc⟩) (optStr mo) (optStr da) v
          ⟨hyd, by rw [show (⟨yc⟩ : String).data = yc from rfl, hyl]⟩ ?_ ?_ h
        · cases mo with
          | none => exact trivial
          | some mc =>
            obtain ⟨hl2, hd2⟩ := hmo mc rfl
            exact ⟨hd2, by rw [show (⟨mc⟩ : String).data = mc from rfl, hl2]⟩
        · cases da with
          | none => exact trivial
          | some dc =>
            obtain ⟨hl2, hd2⟩ := hda dc rfl
            exact ⟨hd2, by rw [show (⟨dc⟩ : String).data = dc from rfl, hl2]⟩
  · have hres : resolveSeed seed kw = .ok (kw.y, kw.m, kw.d) := by
      unfold resolveSeed
      rw [if_neg hst]
    rw [hres] at h
    replace h : validateBuild kw.y kw.m kw.d = .ok v := h
    unfold GoodInput at hg
    rw [if_neg hst] at hg
    exact validateBuild_good _ _ _ v hg.1 hg.2.1 hg.2.2 h

theorem Valid_d_le31 (y m d : Nat) (h : Valid y m d) : d ≤ 31 := by
  obtain ⟨-, -, -, -, h5⟩ := h
  obtain ⟨-, -, -, -, -, h6⟩ := dateValid_elim h5
  by_cases hd0 : d = 0
  · omega
  · rw [if_neg hd0] at h6
    omega

theorem mkWF_canonical_length (y m d : Nat) (hy1 : 1000 ≤ y) (hy2 : y ≤ 9999) (hm : m < 100)
    (hd : d < 100) : (mkWF y m d).canonical.length = 10 := by
  show ((mkWF y m d).canonical.data).length = 10
  rw [show (mkWF y m d).canonical.data = natReprL y ++ '.' :: (pad2L m ++ '.' :: pad2L d) from
    canonical_toList y m d]
  rw [List.length_append, List.length_cons, List.length_append, List.length_cons,
    natReprL_length4 y hy1 hy2, pad2L_length m hm, pad2L_length d hd]

/-- Unconditional unfolding of `listDate`. -/
theorem listDate_eq (fd : FuzzyDate) :
    listDate fd =
      (match pyInt (.str fd.year) with
      | Option.none => .error .intConversion
      | some y =>
        match pyInt (.str fd.month) with
        | Option.none => .error .intConversion
        | some m =>
          match pyInt (.str fd.day) with
          | Option.none => .error .intConversion
          | some d =>
            if dateValid y m d then .ok (y, m, d) else .error .invalidCalendarDate) := rfl

/-- `date(*[int(v) for v in ...])` on a canonical-shape value whose month
and day are both present. -/
theorem listDate_mkWF (y m d : Nat) (hm0 : m ≠ 0) (hd0 : d ≠ 0) (h : Valid y m d) :
    listDate (mkWF y m d) = .ok ((y : Int), (m : Int), (d : Int)) := by
  obtain ⟨h1, h2, h3, h4, h5⟩ := h
  rw [if_neg hm0, if_neg hd0] at h5
  rw [listDate_eq]
  rw [mkWF_year, mkWF_month, mkWF_day, if_neg hm0, if_neg hd0]
  simp only [pyInt_natReprS y, pyInt_pad2S m (by omega), pyInt_pad2S d (by omega), h5, if_true]

theorem Valid_start (y m d : Nat) (h : Valid y m d) :
    Valid y (if m = 0 then 1 else m) (if d = 0 then 1 else d) := by
  obtain ⟨h1, h2, h3, h4, h5⟩ := h
  refine ⟨h1, h2, by split <;> omega, by split <;> omega, ?_⟩
  have e1 : (if (if m = 0 then 1 else m) = 0 then 1 else (if m = 0 then 1 else m)) =
      (if m = 0 then 1 else m) := by
    by_cases hm0 : m = 0 <;> simp [hm0]
  have e2 : (if (if d = 0 then 1 else d) = 0 then 1 else (if d = 0 then 1 else d)) =
      (if d = 0 then 1 else d) := by
    by_cases hd0 : d = 0 <;> simp [hd0]
  rw [e1, e2]
  exact h5

theorem Valid_end (y m d : Nat) (h : Valid y m d) :
    Valid y (if m = 0 then 12 else m)
      (if d = 0 then daysInMonthN y (if m = 0 then 12 else m) else d) := by
  obtain ⟨h1, h2, h3, h4, h5⟩ := h
  by_cases hm0 : m = 0
  · subst hm0
    simp only [ite_true, if_true] at h5 ⊢
    by_cases hd0 : d = 0
    · subst hd0
      simp only [ite_true, if_true]
      have hdm : daysInMonthN y 12 = 31 := rfl
      rw [hdm]
      refine ⟨h1, h2, by omega, by omega, ?_⟩
      rw [show (if (12 : Nat) = 0 then 1 else 12) = 12 from rfl,
        show (if (31 : Nat) = 0 then 1 else 31) = 31 from rfl]
      unfold dateValid
      simp only [Nat.cast_ofNat, daysInMonthI_twelve, Bool.and_eq_true, decide_eq_true_eq]
      omega
    · simp only [hd0, ite_false, if_false]
      refine ⟨h1, h2, by omega, h4, ?_⟩
      rw [show (if (12 : Nat) = 0 then 1 else 12) = 12 from rfl, if_neg hd0]
      rw [if_neg hd0] at h5
      unfold dateValid at h5 ⊢
      simp only [Nat.cast_one, Nat.cast_ofNat, daysInMonthI_one, daysInMonthI_twelve,
        Bool.and_eq_true, decide_eq_true_eq] at h5 ⊢
      omega
  · simp only [if_neg hm0] at h5 ⊢
    by_cases hd0 : d = 0
    · rw [if_pos hd0] at h5
      have hel := dateValid_elim h5
      simp only [hd0, ite_true, if_true]
      have h28 := daysInMonthN_ge28 y m
      have h31 := daysInMonthN_le31 y m
      refine ⟨h1, h2, h3, by omega, ?_⟩
      rw [if_neg hm0, if_neg (by omega)]
      have hc : ((daysInMonthN y m : Nat) : Int) = daysInMonthI (y : Int) (m : Int) :=
        daysInMonthN_cast y m
      unfold dateValid
      simp only [Bool.and_eq_true, decide_eq_true_eq]
      omega
    · rw [if_neg hd0] at h5
      simp only [hd0, ite_false, if_false]
      refine ⟨h1, h2, h3, h4, ?_⟩
      rw [if_neg hm0, if_neg hd0]
      exact h5

/-! ### Claim theorems -/

/-- C1 (amended): for values constructed from canonical-width components
(year given as its plain 4-digit decimal string, month/day as 2-digit
zero-padded strings with `"00"` for absent), comparing the canonical
strings lexicographically is equivalent to comparing the numeric triples
`(year, month-or-0, day-or-0)` lexicographically. -/
theorem claimC1_sort_lex_iff_numeric (y1 m1 d1 y2 m2 d2 : Nat)
    (h1 : Valid y1 m1 d1) (h2 : Valid y2 m2 d2) (v1 v2 : FuzzyDate)
    (hv1 : make .noSeed (normKw y1 m1 d1) = .ok v1)
    (hv2 : make .noSeed (normKw y2 m2 d2) = .ok v2) :
    (v1.canonical < v2.canonical ↔
      (y1 < y2 ∨ (y1 = y2 ∧ (m1 < m2 ∨ (m1 = m2 ∧ d1 < d2))))) := by
  rw [make_norm_ok y1 m1 d1 h1] at hv1
  rw [make_norm_ok y2 m2 d2 h2] at hv2
  have e1 := Except.ok.inj hv1
  have e2 := Except.ok.inj hv2
  subst e1
  subst e2
  obtain ⟨a1, a2, a3, a4, -⟩ := h1
  obtain ⟨b1, b2, b3, b4, -⟩ := h2
  exact canonical_lt_iff y1 m1 d1 y2 m2 d2 a1 a2 b1 b2 (by omega) (by omega) (by omega)
    (by omega)

/-- Witness for C1: the spec's example, `"1985.00.00" < "1985.02.00"`. -/
theorem claimC1_witness :
    (mkWF 1985 0 0).canonical = "1985.00.00" ∧ (mkWF 1985 2 0).canonical = "1985.02.00" ∧
    (mkWF 1985 0 0).canonical < (mkWF 1985 2 0).canonical := by
  refine ⟨rfl, rfl, ?_⟩
  exact (claimC1_sort_lex_iff_numeric 1985 0 0 1985 2 0 (by decide) (by decide)
    (mkWF 1985 0 0) (mkWF 1985 2 0) rfl rfl).mpr (by omega)

/-- Counterexample to C1 as stated: the constructor accepts structured
string fields outside the canonical width, and for the resulting values
lexicographic order of the canonical strings contradicts numeric order
(the first value has numeric year 2021, yet its string sorts before
1985's). -/
theorem claimC1_counterexample :
    make .noSeed ⟨.str "02021", .none, .none⟩ = .ok ⟨"02021.00.00", "02021", "", ""⟩ ∧
    make .noSeed ⟨.str "1985", .none, .none⟩ = .ok ⟨"1985.00.00", "1985", "", ""⟩ ∧
    pyInt (.str "02021") = some 2021 ∧ pyInt (.str "1985") = some 1985 ∧
    (("02021.00.00" : String) < "1985.00.00") ∧ (1985 : Int) < 2021 := by
  refine ⟨rfl, rfl, rfl, rfl, ?_, by omega⟩
  rw [String.lt_iff_toList_lt]
  decide

/-- C2 (amended): for every accepted input within the canonical widths
and the ASCII fragment (an all-ASCII string seed matching the pattern,
any calendar-date seed, or structured fields that are integers or plain
ASCII digit strings of at most 4 (year) / 2 (month/day) digits), the
constructed value is exactly the canonical shape: year as its 4-digit
decimal string, month/day as 2-digit zero-padded strings with `"00"` for
absent, joined by dots into a fixed 10-character ASCII string.  String
seeds with non-ASCII Unicode digits — which the source's pattern also
accepts and stores verbatim, breaking the ASCII `YYYY.MM.DD` form — are
excluded. -/
theorem claimC2_canonical_ten_chars (seed : Seed) (kw : Fields) (v : FuzzyDate)
    (hg : GoodInput seed kw) (h : make seed kw = .ok v) :
    ∃ y m d : Nat, 1000 ≤ y ∧ y ≤ 9999 ∧ m ≤ 12 ∧ d ≤ 31 ∧ v = mkWF y m d ∧
      v.canonical = natReprS y ++ "." ++ pad2S m ++ "." ++ pad2S d ∧
      v.canonical.length = 10 := by
  obtain ⟨y, m, d, hval, hv⟩ := make_good seed kw v hg h
  have h31 := Valid_d_le31 y m d hval
  obtain ⟨a1, a2, a3, a4, -⟩ := hval
  refine ⟨y, m, d, a1, a2, a3, h31, hv, by rw [hv]; rfl, ?_⟩
  rw [hv]
  exact mkWF_canonical_length y m d a1 a2 (by omega) (by omega)

/-- Witness for C2 at the structured input `(y := 2021, m := 7)` and at
the all-ASCII string seed `"1985.02.14"`. -/
theorem claimC2_witness :
    make .noSeed ⟨.int 2021, .int 7, .none⟩ = .ok (mkWF 2021 7 0) ∧
    (∃ y m d : Nat, 1000 ≤ y ∧ y ≤ 9999 ∧ m ≤ 12 ∧ d ≤ 31 ∧
      mkWF 2021 7 0 = mkWF y m d ∧
      (mkWF 2021 7 0).canonical = natReprS y ++ "." ++ pad2S m ++ "." ++ pad2S d ∧
      (mkWF 2021 7 0).canonical.length = 10) ∧
    make (.str "1985.02.14") kw0 = .ok (mkWF 1985 2 14) ∧
    (∃ y m d : Nat, 1000 ≤ y ∧ y ≤ 9999 ∧ m ≤ 12 ∧ d ≤ 31 ∧
      mkWF 1985 2 14 = mkWF y m d ∧
      (mkWF 1985 2 14).canonical = natReprS y ++ "." ++ pad2S m ++ "." ++ pad2S d ∧
      (mkWF 1985 2 14).canonical.length = 10) := by
  refine ⟨rfl, ?_, rfl, ?_⟩
  · exact claimC2_canonical_ten_chars .noSeed ⟨.int 2021, .int 7, .none⟩ (mkWF 2021 7 0)
      ⟨trivial, trivial, trivial⟩ rfl
  · exact claimC2_canonical_ten_chars (.str "1985.02.14") kw0 (mkWF 1985 2 14)
      (show ("1985.02.14" : String).data.all isAsciiChar = true from rfl) rfl

/-- Counterexample to C2 as stated: the accepted structured input
`y = "02021"` (a digit string of non-canonical width) yields an 11-character
canonical string, and its year component is not the 4-digit decimal string
of the year value 2021. -/
theorem claimC2_counterexample :
    make .noSeed ⟨.str "02021", .none, .none⟩ = .ok ⟨"02021.00.00", "02021", "", ""⟩ ∧
    (⟨"02021.00.00", "02021", "", ""⟩ : FuzzyDate).canonical.length = 11 ∧
    pyInt (.str "02021") = some 2021 ∧ natReprS 2021 = "2021" :=
  ⟨rfl, rfl, rfl, rfl⟩

/-- C3 (amended): on structured integer fields the constructor applies its
checks in the fixed order: missing year, then day-present-without-month,
then the year range [1000, 9999], and only then calendar-date validity of
`(year, month-or-1, day-or-1)`; the earliest failing check determines the
error. -/
theorem claimC3_validation_order (a b c : Int) :
    make .noSeed ⟨.int a, .int b, .int c⟩ =
      (if a = 0 then .error .missingYear
      else if c ≠ 0 ∧ b = 0 then .error .dayWithoutMonth
      else if a < 1000 ∨ a > 9999 then .error .yearOutOfRange
      else if dateValid a (if b = 0 then 1 else b) (if c = 0 then 1 else c) = false then
        .error .invalidCalendarDate
      else .ok (mkWF a.toNat b.toNat c.toNat)) := by
  rw [make_int]
  exact validateBuild_int a b c

/-- Counterexample to C3 as stated: year 999 with month 13 violates both
the calendar rule and the year range, and the reported error is
year-out-of-range, not invalid-calendar-date. -/
theorem claimC3_counterexample :
    make .noSeed ⟨.int 999, .int 13, .none⟩ = .error .yearOutOfRange ∧
    FDError.yearOutOfRange ≠ FDError.invalidCalendarDate :=
  ⟨rfl, by decide⟩

/-- C4: the string `"2001.00.15"` (day present, month given as the absent
placeholder `"00"`) is accepted by the constructor instead of raising the
day-requires-month error — the check `day and not month` sees the truthy
string `"00"` — producing a value with a day but no month, on which the
source's own `as_date` then fails when computing `int("")`. -/
theorem claimC4_day_without_month_string_accepted :
    make (.str "2001.00.15") kw0 = .ok ⟨"2001.00.15", "2001", "", "15"⟩ ∧
    (⟨"2001.00.15", "2001", "", "15"⟩ : FuzzyDate).month = "" ∧
    (⟨"2001.00.15", "2001", "", "15"⟩ : FuzzyDate).day = "15" ∧
    (⟨"2001.00.15", "2001", "", "15"⟩ : FuzzyDate).is_fuzzy = false ∧
    (⟨"2001.00.15", "2001", "", "15"⟩ : FuzzyDate).as_date Option.none =
      .error .intConversion :=
  ⟨rfl, rfl, rfl, rfl, rfl⟩

/-- C5 (amended): the string `"2021-13"` matches the accepted pattern
(month group `"13"`), so construction fails with the invalid-calendar-date
error rather than the malformed-input error. -/
theorem claimC5_month13_invalid_calendar :
    matchDate ("2021-13" : String).data =
      some (['2', '0', '2', '1'], some ['1', '3'], Option.none) ∧
    make (.str "2021-13") kw0 = .error .invalidCalendarDate :=
  ⟨rfl, rfl⟩

/-- Counterexample to C5 as stated: constructing from `"2021-13"` does not
raise the malformed-input error. -/
theorem claimC5_counterexample :
    make (.str "2021-13") kw0 ≠ .error .malformedInput := by
  intro h
  have he : make (.str "2021-13") kw0 = .error .invalidCalendarDate := rfl
  rw [he] at h
  exact absurd (Except.error.inj h) (by decide)

/-- C6 (amended): on structured integer fields, construction fails with the
year-out-of-range error exactly when the year field is truthy (nonzero),
the day-without-month check does not fire first, and the year value lies
outside [1000, 9999]; supplying the integer 0 as the year instead raises
the missing-year error, whatever the month and day. -/
theorem claimC6_year_range_iff (a b c : Int) :
    (make .noSeed ⟨.int a, .int b, .int c⟩ = .error .yearOutOfRange ↔
      (a ≠ 0 ∧ ¬(c ≠ 0 ∧ b = 0) ∧ (a < 1000 ∨ a > 9999))) ∧
    make .noSeed ⟨.int 0, .int b, .int c⟩ = .error .missingYear := by
  constructor
  · rw [make_int, validateBuild_int]
    by_cases ha : a = 0
    · simp [ha]
    · rw [if_neg ha]
      by_cases hdm : c ≠ 0 ∧ b = 0
      · simp [ha, hdm]
      · rw [if_neg hdm]
        by_cases hr : a < 1000 ∨ a > 9999
        · simp [ha, hdm, hr]
        · rw [if_neg hr]
          by_cases hdv :
              dateValid a (if b = 0 then 1 else b) (if c = 0 then 1 else c) = false
          · simp [ha, hdm, hr, hdv]
          · rw [if_neg hdv]
            simp [ha, hdm, hr]
  · rw [make_int, validateBuild_int]
    simp

/-- Counterexample to C6 as stated: year 0 with the valid month/day
combination (1, 1) raises the missing-year error, not year-out-of-range. -/
theorem claimC6_counterexample :
    make .noSeed ⟨.int 0, .int 1, .int 1⟩ = .error .missingYear ∧
    FDError.missingYear ≠ FDError.yearOutOfRange :=
  ⟨rfl, by decide⟩

/-- C7: for every valid constructed value, `get_start` substitutes `01`
for a missing month and `01` for a missing day, `get_end` substitutes `12`
for a missing month and the last valid day of the resolved month in the
resolved year for a missing day (Gregorian, leap years included), both
return new non-fuzzy values, and `get_range` is exactly the pair
`(get_start, get_end)`. -/
theorem claimC7_range_resolution (y m d : Nat) (h : Valid y m d) (fd : FuzzyDate)
    (hfd : make .noSeed (normKw y m d) = .ok fd) :
    fd.get_start = .ok (mkWF y (if m = 0 then 1 else m) (if d = 0 then 1 else d)) ∧
    (mkWF y (if m = 0 then 1 else m) (if d = 0 then 1 else d)).is_fuzzy = false ∧
    fd.get_end = .ok (mkWF y (if m = 0 then 12 else m)
      (if d = 0 then daysInMonthN y (if m = 0 then 12 else m) else d)) ∧
    (mkWF y (if m = 0 then 12 else m)
      (if d = 0 then daysInMonthN y (if m = 0 then 12 else m) else d)).is_fuzzy = false ∧
    fd.get_range = (fd.get_start, fd.get_end) := by
  rw [make_norm_ok y m d h] at hfd
  have e := Except.ok.inj hfd
  subst e
  refine ⟨get_start_mkWF y m d h, ?_, get_end_mkWF y m d h, ?_, rfl⟩
  · rw [is_fuzzy_mkWF]
    simp only [decide_eq_false_iff_not]
    split <;> omega
  · rw [is_fuzzy_mkWF]
    simp only [decide_eq_false_iff_not]
    have h28 := daysInMonthN_ge28 y (if m = 0 then 12 else m)
    split <;> omega

/-- Witness for C7: the leap-year examples — `get_end` of 2000-02 resolves
to day 29, of 1900-02 and 2001-02 to day 28. -/
theorem claimC7_witness :
    make .noSeed (normKw 2000 2 0) = .ok (mkWF 2000 2 0) ∧
    (mkWF 2000 2 0).get_start = .ok (mkWF 2000 2 1) ∧
    (mkWF 2000 2 0).get_end = .ok (mkWF 2000 2 29) ∧
    (mkWF 2000 2 29).is_fuzzy = false ∧
    (mkWF 2000 2 0).get_range = ((mkWF 2000 2 0).get_start, (mkWF 2000 2 0).get_end) ∧
    (mkWF 1900 2 0).get_end = .ok (mkWF 1900 2 28) ∧
    (mkWF 2001 2 0).get_end = .ok (mkWF 2001 2 28) := by
  have h1 := claimC7_range_resolution 2000 2 0 (by decide) (mkWF 2000 2 0) rfl
  have h2 := claimC7_range_resolution 1900 2 0 (by decide) (mkWF 1900 2 0) rfl
  have h3 := claimC7_range_resolution 2001 2 0 (by decide) (mkWF 2001 2 0) rfl
  exact ⟨rfl, h1.1, h1.2.2.1, h1.2.2.2.1, h1.2.2.2.2, h2.2.2.1, h3.2.2.1⟩

/-- C9 (amended): for values constructed from canonical-width components,
parsing the emitted canonical string reconstructs the identical value
(fields included), so serialise-then-parse is the identity on
canonical-shape values. -/
theorem claimC9_roundtrip (y m d : Nat) (h : Valid y m d) (v : FuzzyDate)
    (hv : make .noSeed (normKw y m d) = .ok v) :
    make (.str v.canonical) kw0 = .ok v := by
  rw [make_norm_ok y m d h] at hv
  have e := Except.ok.inj hv
  subst e
  obtain ⟨a1, a2, a3, a4, h5⟩ := h
  have hlen := mkWF_canonical_length y m d a1 a2 (by omega) (by omega)
  have hne : (mkWF y m d).canonical ≠ "" := by
    intro h0
    rw [h0] at hlen
    exact absurd hlen (by decide)
  have hst : seedTruthy (.str (mkWF y m d).canonical) = true := by
    simp [seedTruthy, hne]
  have hres : resolveSeed (.str (mkWF y m d).canonical) kw0 =
      .ok (.str (natReprS y), .str (pad2S m), .str (pad2S d)) := by
    unfold resolveSeed
    rw [if_pos hst]
    show (match matchDate (mkWF y m d).canonical.data with
      | some (yc, mc, dc) => Except.ok (PyVal.str ⟨yc⟩, optStr mc, optStr dc)
      | Option.none => Except.error FDError.malformedInput) = _
    rw [matchDate_canonical y m d a1 a2 (by omega) (by omega)]
    rfl
  unfold make
  rw [hres]
  show validateBuild (.str (natReprS y)) (.str (pad2S m)) (.str (pad2S d)) =
    .ok (mkWF y m d)
  rw [validateBuild_norm y m d a1 a2 (by omega) (by omega), if_pos h5]

/-- Witness for C9: the spec's example `"2001.07.00"` parses back to the
same value. -/
theorem claimC9_witness :
    make .noSeed (normKw 2001 7 0) = .ok (mkWF 2001 7 0) ∧
    (mkWF 2001 7 0).canonical = "2001.07.00" ∧
    make (.str "2001.07.00") kw0 = .ok (mkWF 2001 7 0) := by
  refine ⟨rfl, rfl, ?_⟩
  exact claimC9_roundtrip 2001 7 0 (by decide) (mkWF 2001 7 0) rfl

/-- Counterexample to C9 as stated: the successfully constructed value
from `y = "02021"` emits the canonical string `"02021.00.00"`, and
constructing from that string fails (the pattern requires a 4-digit
year), so parse-after-serialise is not the identity on all constructed
values. -/
theorem claimC9_counterexample :
    make .noSeed ⟨.str "02021", .none, .none⟩ = .ok ⟨"02021.00.00", "02021", "", ""⟩ ∧
    make (.str "02021.00.00") kw0 = .error .malformedInput :=
  ⟨rfl, rfl⟩

/-- C10 (amended): falsy field values are silently coerced to absent
rather than validated as given: with month and day supplied as the integer
0, construction treats both as absent (yielding a fuzzy value when the
year is valid), and a year supplied as the integer 0 raises the
missing-year error instead of a range error. -/
theorem claimC10_falsy_coercion (a : Int) :
    make .noSeed ⟨.int a, .int 0, .int 0⟩ =
      (if a = 0 then .error .missingYear
      else if a < 1000 ∨ a > 9999 then .error .yearOutOfRange
      else .ok (mkWF a.toNat 0 0)) ∧
    (mkWF a.toNat 0 0).is_fuzzy = true := by
  constructor
  · rw [make_int, validateBuild_int]
    by_cases ha : a = 0
    · simp [ha]
    · rw [if_neg ha, if_neg ha]
      rw [if_neg (show ¬((0 : Int) ≠ 0 ∧ (0 : Int) = 0) by simp)]
      by_cases hr : a < 1000 ∨ a > 9999
      · rw [if_pos hr, if_pos hr]
      · rw [if_neg hr, if_neg hr]
        have hdv : dateValid a (if (0 : Int) = 0 then 1 else 0)
            (if (0 : Int) = 0 then 1 else 0) = true := by
          rw [if_pos rfl]
          unfold dateValid
          rw [daysInMonthI_one]
          simp only [Bool.and_eq_true, decide_eq_true_eq]
          omega
        rw [if_neg (by rw [hdv]; simp)]
        rfl
  · rw [is_fuzzy_mkWF]
    rfl

/-- Counterexample to C10 as stated: supplying the integer 0 for the month
is silently reinterpreted as the month being absent — construction
succeeds with a fuzzy value instead of surfacing a calendar error for the
invalid month 0. -/
theorem claimC10_counterexample :
    make .noSeed ⟨.int 2000, .int 0, .none⟩ = .ok ⟨"2000.00.00", "2000", "", ""⟩ ∧
    (⟨"2000.00.00", "2000", "", ""⟩ : FuzzyDate).month = "" ∧
    (⟨"2000.00.00", "2000", "", ""⟩ : FuzzyDate).is_fuzzy = true :=
  ⟨rfl, rfl, rfl⟩

/-- C8 (amended): for canonical-shape values with month present whenever
day is present: a non-fuzzy value's `as_date` returns its exact date and
ignores the `default` argument entirely (no error for an unrecognised
default); a fuzzy value's `as_date` returns nothing for default `None`,
the `get_start` date for `"start"`, the `get_end` date for `"end"`, and
fails with the invalid-range-default error for any other string. -/
theorem claimC8_as_date (y m d : Nat) (h : Valid y m d) (hdm : d ≠ 0 → m ≠ 0)
    (fd : FuzzyDate) (hfd : make .noSeed (normKw y m d) = .ok fd) :
    (d ≠ 0 → ∀ dflt : Option String,
      fd.as_date dflt = .ok (some ((y : Int), (m : Int), (d : Int)))) ∧
    (d = 0 →
      fd.as_date Option.none = .ok Option.none ∧
      fd.as_date (some "start") =
        .ok (some ((y : Int), ((if m = 0 then 1 else m : Nat) : Int), (1 : Int))) ∧
      fd.as_date (some "end") =
        .ok (some ((y : Int), ((if m = 0 then 12 else m : Nat) : Int),
          ((daysInMonthN y (if m = 0 then 12 else m) : Nat) : Int))) ∧
      (∀ s : String, s ≠ "start" → s ≠ "end" →
        fd.as_date (some s) = .error .invalidRangeDefault)) := by
  rw [make_norm_ok y m d h] at hfd
  have e := Except.ok.inj hfd
  subst e
  constructor
  · intro hd0 dflt
    have hm0 := hdm hd0
    have hnf : ¬((mkWF y m d).is_fuzzy = true) := by
      rw [is_fuzzy_mkWF]
      simp [hd0]
    unfold FuzzyDate.as_date
    rw [if_neg hnf, listDate_mkWF y m d hm0 hd0 h]
  · intro hd0
    subst hd0
    have hfz : (mkWF y m 0).is_fuzzy = true := by
      simp [is_fuzzy_mkWF]
    have hv1 : Valid y (if m = 0 then 1 else m) 1 := by
      have hx := Valid_start y m 0 h
      simpa using hx
    have hl1 : listDate (mkWF y (if m = 0 then 1 else m) 1) =
        .ok ((y : Int), ((if m = 0 then 1 else m : Nat) : Int), ((1 : Nat) : Int)) :=
      listDate_mkWF y _ 1 (by split <;> omega) (by omega) hv1
    have hv2 : Valid y (if m = 0 then 12 else m)
        (daysInMonthN y (if m = 0 then 12 else m)) := by
      have hx := Valid_end y m 0 h
      simpa using hx
    have h28 := daysInMonthN_ge28 y (if m = 0 then 12 else m)
    have hl2 : listDate (mkWF y (if m = 0 then 12 else m)
          (daysInMonthN y (if m = 0 then 12 else m))) =
        .ok ((y : Int), ((if m = 0 then 12 else m : Nat) : Int),
          ((daysInMonthN y (if m = 0 then 12 else m) : Nat) : Int)) :=
      listDate_mkWF y _ _ (by split <;> omega) (by omega) hv2
    have hgs : (mkWF y m 0).get_start = .ok (mkWF y (if m = 0 then 1 else m) 1) := by
      have hx := get_start_mkWF y m 0 h
      simpa using hx
    have hge : (mkWF y m 0).get_end =
        .ok (mkWF y (if m = 0 then 12 else m) (daysInMonthN y (if m = 0 then 12 else m))) := by
      have hx := get_end_mkWF y m 0 h
      simpa using hx
    refine ⟨?_, ?_, ?_, ?_⟩
    · unfold FuzzyDate.as_date
      rw [if_pos hfz]
    · simp only [FuzzyDate.as_date, hfz, ite_true, if_true, reduceIte, hgs, hl1, Nat.cast_one]
    · simp only [FuzzyDate.as_date, hfz, ite_true, if_true, reduceIte, hge, hl2]
      rw [if_neg (show ("end" : String) ≠ "start" from by decide)]
    · intro s hs1 hs2
      simp only [FuzzyDate.as_date, hfz, ite_true, if_true]
      rw [if_neg hs1, if_neg hs2]

/-- Witness for C8: a fuzzy value (1985-02) resolved through each default,
and a non-fuzzy value returning its exact date. -/
theorem claimC8_witness :
    make .noSeed (normKw 1985 2 0) = .ok (mkWF 1985 2 0) ∧
    (mkWF 1985 2 0).as_date Option.none = .ok Option.none ∧
    (mkWF 1985 2 0).as_date (some "start") = .ok (some (1985, 2, 1)) ∧
    (mkWF 1985 2 0).as_date (some "end") = .ok (some (1985, 2, 28)) ∧
    (mkWF 1985 2 0).as_date (some "later") = .error .invalidRangeDefault ∧
    (mkWF 1985 2 14).as_date (some "banana") = .ok (some (1985, 2, 14)) := by
  have h1 := claimC8_as_date 1985 2 0 (by decide) (by omega) (mkWF 1985 2 0) rfl
  have h2 := claimC8_as_date 1985 2 14 (by decide) (by omega) (mkWF 1985 2 14) rfl
  obtain ⟨-, hf⟩ := h1
  obtain ⟨hf1, hf2, hf3, hf4⟩ := hf rfl
  refine ⟨rfl, hf1, hf2, hf3, hf4 "later" (by decide) (by decide), ?_⟩
  exact h2.1 (by omega) (some "banana")

/-- Counterexample to C8 as stated: on a non-fuzzy value, `as_date` with
the unrecognised default `"banana"` does not fail with the
invalid-range-default error — the default is ignored and the exact date
returned. -/
theorem claimC8_counterexample :
    make (.str "2001.05.15") kw0 = .ok ⟨"2001.05.15", "2001", "05", "15"⟩ ∧
    (⟨"2001.05.15", "2001", "05", "15"⟩ : FuzzyDate).as_date (some "banana") =
      .ok (some (2001, 5, 15)) ∧
    (Except.ok (some ((2001 : Int), (5 : Int), (15 : Int))) ≠
      (.error .invalidRangeDefault : Except FDError (Option (Int × Int × Int)))) :=
  ⟨rfl, rfl, by simp⟩

end FuzzyDates
